import Mathlib

/-!
# Game of Life: the grid and its generation step

A shallow embedding of `main.go` of `pedrospdc/gameoflife`.

* Go's `int` is a 64-bit two's-complement integer: values are `Int`, and the
  additions the program performs on coordinates (`y + i`, `x + i2`, `g.y + 1`)
  are wrapped explicitly by `wrap`.
* A slice is a `List`; an index expression is `index` (read) or `store`
  (write), both of which fail (`none`) exactly where Go panics with an
  index-out-of-range error.  Rows of a grid are taken not to alias each other,
  as is the case for every grid built by `NewGrid`, `Populate` or a literal.
* A function that can panic returns `Option`; `none` is the panic.  `make`
  panics on a length that is negative or beyond the allocation limit of the
  runtime; running out of memory below that limit is not modelled.
* `Walk` prints a frame; the text written to standard output is returned next
  to the grid that `Walk` leaves behind.
* `math/rand/v2` is an input: a stream of draws and a cursor (`Rand`).
-/

namespace GameOfLife

/-! ## Machine integers -/

/-- The integer is a value of Go's `int` on a 64-bit platform: it lies between
`-2^63` and `2^63 - 1`. -/
def IsInt (n : Int) : Prop := -9223372036854775808 ≤ n ∧ n ≤ 9223372036854775807

instance (n : Int) : Decidable (IsInt n) := by unfold IsInt; infer_instance

/-- Two's-complement wrap-around of the exact result of an `int` operation:
the representative of `n` modulo `2^64` between `-2^63` and `2^63 - 1`. -/
def wrap (n : Int) : Int :=
  (n + 9223372036854775808) % 18446744073709551616 - 9223372036854775808

/-! ## Slices -/

/-- The index expression `s[i]` read: `none` is the index-out-of-range panic. -/
def index {α : Type} (s : List α) (i : Int) : Option α :=
  if 0 ≤ i ∧ i < s.length then s[i.toNat]? else none

/-- The assignment `s[i] = v`: `none` is the index-out-of-range panic. -/
def store {α : Type} (s : List α) (i : Int) (v : α) : Option (List α) :=
  if 0 ≤ i ∧ i < s.length then some (s.set i.toNat v) else none

/-- The largest allocation the Go runtime accepts on a 64-bit platform with
48-bit heap addresses (`maxAlloc`, `2^48` bytes). -/
def maxAlloc : Int := 281474976710656

/-- The builtin `make([]T, n)` for an element type of `size` bytes, every
element the zero value of `T`.  It panics (`makeslice: len out of range`) on a
negative length and on a length whose `size * n` bytes exceed `maxAlloc`.
Below that limit the machine is taken to have the memory: running out of it is
a fatal error of the process, not a panic, and depends on the machine. -/
def make {α : Type} (size n : Int) (zero : α) : Option (List α) :=
  if n < 0 ∨ size * n > maxAlloc then none else some (List.replicate n.toNat zero)

/-- A counting loop `for i := range n` (also `for i := range s` with
`n = len(s)`, which Go evaluates once): the body runs for `i = 0, …, n-1` on
the state, and a panic in the body ends the loop. -/
def forRange {σ : Type} (n : Nat) (body : Int → σ → Option σ) (init : σ) : Option σ :=
  (List.range n).foldlM (fun (s : σ) (i : Nat) => body (i : Int) s) init

/-! ## Cells -/

/-- Go's `type Cell int`. -/
abbrev Cell := Int

/-- First constant of the `iota` block: `Alive Cell = iota`, which is 0. -/
def Alive : Cell := 0

/-- Second constant of the `iota` block: `Dead`, which is 1. -/
def Dead : Cell := 1

/-- Go's `NextGeneration(c, aliveNeighbors)`. -/
def NextGeneration (c : Cell) (aliveNeighbors : Int) : Cell :=
  if c = Alive ∧ (aliveNeighbors < 2 ∨ aliveNeighbors > 3) then Dead
  else if c = Dead ∧ aliveNeighbors = 3 then Alive
  else c

/-! ## Grid -/

/-- Go's `type Grid struct { x int; y int; Cells [][]Cell }`. -/
structure Grid where
  x : Int
  y : Int
  Cells : List (List Cell)
deriving DecidableEq, Repr

/-- Go's `NewGrid(x, y)`: `make([][]Cell, y)`, whose rows are nil slices (a
slice header takes 24 bytes), then every row replaced by `make([]Cell, x)`,
whose cells are the zero `Cell` (a `Cell` is an `int`, 8 bytes). -/
def NewGrid (x y : Int) : Option Grid := do
  let cells ← make 24 y ([] : List Cell)
  let cells ← forRange cells.length
    (fun i cs => do
      let row ← make 8 x (0 : Cell)
      store cs i row) cells
  pure ⟨x, y, cells⟩

/-- One turn of the body of the two loops of `GetAliveNeighborCells`, for the
offsets `i` (rows) and `i2` (columns). -/
def countNeighbor (g : Grid) (x y i i2 : Int) (aliveNeighbors : Int) : Option Int :=
  if i = 0 ∧ i2 = 0 then some aliveNeighbors
  else
    let ny := wrap (y + i)
    let nx := wrap (x + i2)
    if ny ≥ 0 ∧ ny < g.y then
      if nx ≥ 0 ∧ nx < g.x then do
        let row ← index g.Cells ny
        let c ← index row nx
        if c = Alive then some (aliveNeighbors + 1) else some aliveNeighbors
      else some aliveNeighbors
    else some aliveNeighbors

/-- Go's `g.GetAliveNeighborCells(x, y)`.  The counter never exceeds 8, so its
increment is not wrapped. -/
def GetAliveNeighborCells (g : Grid) (x y : Int) : Option Int :=
  let n : List Int := [-1, 0, 1]
  n.foldlM (fun acc i => n.foldlM (fun acc2 i2 => countNeighbor g x y i i2 acc2) acc) 0

/-- Go's `strings.Repeat(s, count)`: it panics when `count` is negative and
when the length of the result overflows `int`. -/
def stringsRepeat (s : String) (count : Int) : Option String :=
  if count < 0 then none
  else if (s.utf8ByteSize : Int) * count > 9223372036854775807 then none
  else some (String.join (List.replicate count.toNat s))

/-- The glyph `Walk` writes for a cell: the `switch c` with its `default`. -/
def glyph (c : Cell) : String := if c = Alive then "█" else " "

/-- Body of the inner loop of `Walk` at column `x` of row `y`; the state is the
grid and the buffer. -/
def walkCell (y x : Int) (st : Grid × String) : Option (Grid × String) := do
  let g := st.1
  let row ← index g.Cells y
  let c ← index row x
  let n ← GetAliveNeighborCells g x y
  let row ← index g.Cells y
  let row ← store row x (NextGeneration c n)
  let cells ← store g.Cells y row
  pure (⟨g.x, g.y, cells⟩, st.2 ++ glyph c)

/-- Body of the outer loop of `Walk` at row `y`: `for x := range g.Cells[y]`. -/
def walkRow (y : Int) (st : Grid × String) : Option (Grid × String) := do
  let row ← index st.1.Cells y
  forRange row.length (walkCell y) st

/-- Go's `g.Walk()`: the grid it leaves and the text it prints. -/
def Walk (g : Grid) : Option (Grid × String) := do
  let header ← stringsRepeat "\x1b[1A" (wrap (g.y + 1))
  let st ← forRange g.Cells.length walkRow (g, header)
  pure (st.1, st.2 ++ "\n")

/-! ## Random population -/

/-- The random source: the stream of raw draws and the number consumed. -/
structure Rand where
  draws : Nat → Nat
  pos : Nat

/-- Go's `rand.Int64N(n)` for positive `n`: the next draw, reduced to `[0, n)`. -/
def Int64N (n : Int) (r : Rand) : Int × Rand :=
  ((r.draws r.pos : Int) % n, ⟨r.draws, r.pos + 1⟩)

/-- Body of the inner loop of `Populate` at column `x`; the state is the line
and the random source. -/
def populateCell (x : Int) (st : List Cell × Rand) : Option (List Cell × Rand) :=
  let d := Int64N 20 st.2
  if Int.tmod d.1 20 = 0 then (store st.1 x Alive).map (fun line => (line, d.2))
  else (store st.1 x Dead).map (fun line => (line, d.2))

/-- Body of the outer loop of `Populate` at row `y`; the state is the grid and
the random source. -/
def populateLine (y : Int) (st : Grid × Rand) : Option (Grid × Rand) := do
  let g := st.1
  let line ← make 8 g.x (0 : Cell)
  let d := Int64N 3 st.2
  let filled ←
    if Int.tmod d.1 3 = 0 then forRange g.x.toNat populateCell (line, d.2)
    else some (line, d.2)
  let cells ← store g.Cells y filled.1
  pure (⟨g.x, g.y, cells⟩, filled.2)

/-- Go's `g.Populate()`: `for y := range g.y`. -/
def Populate (g : Grid) (r : Rand) : Option (Grid × Rand) :=
  forRange g.y.toNat populateLine (g, r)

/-! ## Vocabulary of the specification -/

/-- The grid has `g.y` rows of `g.x` cells each. -/
def WellFormed (g : Grid) : Prop :=
  (g.Cells.length : Int) = g.y ∧ ∀ row ∈ g.Cells, (row.length : Int) = g.x

instance (g : Grid) : Decidable (WellFormed g) := by unfold WellFormed; infer_instance

/-- The fields `x` and `y` hold values of Go's `int`. -/
def IntFields (g : Grid) : Prop := IsInt g.x ∧ IsInt g.y

instance (g : Grid) : Decidable (IntFields g) := by unfold IntFields; infer_instance

/-- The `g.y + 1` cursor-up sequences of four bytes each, which `Walk` writes
first, make a Go string: their total length is an `int`. -/
def FrameFits (g : Grid) : Prop := 4 * (g.y + 1) ≤ 9223372036854775807

instance (g : Grid) : Decidable (FrameFits g) := by unfold FrameFits; infer_instance

/-- A row of `g.x` cells of 8 bytes is within the limit of `make`, as is the
case for every grid whose rows exist in memory. -/
def RowFits (g : Grid) : Prop := 8 * g.x ≤ maxAlloc

instance (g : Grid) : Decidable (RowFits g) := by unfold RowFits; infer_instance

/-- The cell at column `x` of row `y`, when there is one. -/
def cellAt (g : Grid) (x y : Int) : Option Cell :=
  (index g.Cells y).bind (fun row => index row x)

/-- The position lies in `[0, width) × [0, height)` and the cell there is Alive. -/
def aliveAt (g : Grid) (x y : Int) : Bool :=
  decide (0 ≤ x ∧ x < g.x ∧ 0 ≤ y ∧ y < g.y ∧ cellAt g x y = some Alive)

/-- The 8 offsets `(dx, dy)` of `{-1,0,1}²` other than `(0,0)`. -/
def offsets : List (Int × Int) :=
  [(-1, -1), (0, -1), (1, -1), (-1, 0), (1, 0), (-1, 1), (0, 1), (1, 1)]

/-- The specification's neighbour count: the number of the 8 offsets whose
position is in bounds and Alive. -/
def neighborCount (g : Grid) (x y : Int) : Int :=
  (offsets.countP (fun o => aliveAt g (x + o.1) (y + o.2)) : Nat)


/-- The contribution of one position to the count: 1 when it is in bounds and
Alive, 0 otherwise. -/
def contribution (g : Grid) (x y : Int) : Int := if aliveAt g x y then 1 else 0

/-- The number of Alive cells among all 8 positions around `(x, y)`, with no
test of the bounds. -/
def aliveAround (g : Grid) (x y : Int) : Int :=
  (offsets.countP (fun o => decide (cellAt g (x + o.1) (y + o.2) = some Alive)) : Nat)

/-- Membership in the block `(1,1)`, `(1,2)`, `(2,1)`, `(2,2)`, as 1 or 0. -/
def blockCell (x y : Int) : Int := if (x = 1 ∨ x = 2) ∧ (y = 1 ∨ y = 2) then 1 else 0

/-- The grid with the cell at column `x` of row `y` replaced. -/
def setCell (g : Grid) (x y : Int) (c : Cell) : Grid :=
  ⟨g.x, g.y, g.Cells.set y.toNat ((g.Cells.getD y.toNat []).set x.toNat c)⟩

/-- The double-buffered reference step of the specification: every cell
becomes `NextGeneration` of its old state and of its neighbour count on the
grid as it stood at the start of the step. -/
def referenceStep (g : Grid) : Grid :=
  ⟨g.x, g.y, g.Cells.enum.map (fun yr =>
    yr.2.enum.map (fun xc => NextGeneration xc.2 (neighborCount g (xc.1 : Int) (yr.1 : Int))))⟩

/-! ## Sample grids -/

/-- One row of three Alive cells. -/
def rowOfThree : Grid := ⟨3, 1, [[Alive, Alive, Alive]]⟩

/-- The horizontal blinker on a 5×5 grid: `(1,2)`, `(2,2)`, `(3,2)` Alive. -/
def blinker : Grid :=
  ⟨5, 5, [[Dead, Dead, Dead, Dead, Dead],
          [Dead, Dead, Dead, Dead, Dead],
          [Dead, Alive, Alive, Alive, Dead],
          [Dead, Dead, Dead, Dead, Dead],
          [Dead, Dead, Dead, Dead, Dead]]⟩

/-- The vertical blinker on a 5×5 grid: `(2,1)`, `(2,2)`, `(2,3)` Alive. -/
def blinkerVertical : Grid :=
  ⟨5, 5, [[Dead, Dead, Dead, Dead, Dead],
          [Dead, Dead, Alive, Dead, Dead],
          [Dead, Dead, Alive, Dead, Dead],
          [Dead, Dead, Alive, Dead, Dead],
          [Dead, Dead, Dead, Dead, Dead]]⟩

/-- The block on a 4×4 grid: `(1,1)`, `(1,2)`, `(2,1)`, `(2,2)` Alive. -/
def block : Grid :=
  ⟨4, 4, [[Dead, Dead, Dead, Dead],
          [Dead, Alive, Alive, Dead],
          [Dead, Alive, Alive, Dead],
          [Dead, Dead, Dead, Dead]]⟩

/-- A 3×2 grid with every cell Dead. -/
def allDead : Grid := ⟨3, 2, [[Dead, Dead, Dead], [Dead, Dead, Dead]]⟩

/-- A 3×3 grid with every cell Alive. -/
def allAlive : Grid :=
  ⟨3, 3, [[Alive, Alive, Alive], [Alive, Alive, Alive], [Alive, Alive, Alive]]⟩

/-- The grid of `TestGetAliveNeighborCells`. -/
def testGrid : Grid :=
  ⟨5, 5, [[Alive, Dead, Alive, Dead, Dead],
          [Dead, Dead, Dead, Alive, Dead],
          [Alive, Dead, Alive, Dead, Dead],
          [Dead, Alive, Dead, Dead, Dead],
          [Dead, Dead, Dead, Dead, Dead]]⟩

/-! ## Vocabulary of the in-place sweep and of the frame -/

/-- The count the in-place sweep uses at `(x, y)`: the grid `g'` is read at the
positions that precede `(x, y)` in row-major order (the row above, and
`(x-1, y)`), the grid `g` at those that follow (`(x+1, y)` and the row below). -/
def sweepCount (g g' : Grid) (x y : Int) : Int :=
  contribution g' (x + -1) (y + -1) + contribution g' (x + 0) (y + -1)
    + contribution g' (x + 1) (y + -1) + contribution g' (x + -1) (y + 0)
    + contribution g (x + 1) (y + 0) + contribution g (x + -1) (y + 1)
    + contribution g (x + 0) (y + 1) + contribution g (x + 1) (y + 1)

/-- The glyphs of one row, left to right. -/
def rowText (row : List Cell) : String := String.join (row.map glyph)

/-- The glyphs of the first `i` rows followed by those of the first `j` cells
of row `i`. -/
def textBefore (g : Grid) (i j : Nat) : String :=
  String.join ((g.Cells.take i).map rowText) ++ rowText ((g.Cells.getD i []).take j)

/-- The frame of a grid: `g.y + 1` cursor-up sequences, one glyph per cell in
row-major order with nothing between the rows, and a newline. -/
def frameText (g : Grid) : String :=
  String.join (List.replicate (g.y + 1).toNat "\x1b[1A") ++ String.join (g.Cells.map rowText)
    ++ "\n"

/-- The position `(a, b)` comes before `(x, y)` in row-major order. -/
def precedes (a b x y : Int) : Prop := b < y ∨ (b = y ∧ a < x)

/-- The state of `Walk` before it processes the cell at column `j` of row `i`
of the grid `g`, the buffer having started as `header`: the size is that of
`g`, the buffer holds the glyphs of the start-of-step cells swept so far, the
cells not yet swept are those of `g`, and every cell already swept holds its
next generation for the count the sweep saw. -/
structure SweepInv (g : Grid) (header : String) (i j : Nat) (st : Grid × String) : Prop where
  wf : WellFormed st.1
  sameX : st.1.x = g.x
  sameY : st.1.y = g.y
  text : st.2 = header ++ textBefore g i j
  later : ∀ a b : Int, 0 ≤ a → a < g.x → 0 ≤ b → b < g.y → ¬ precedes a b (j : Int) (i : Int) →
    cellAt st.1 a b = cellAt g a b
  earlier : IntFields g → ∀ a b : Int, 0 ≤ a → a < g.x → 0 ≤ b → b < g.y →
    precedes a b (j : Int) (i : Int) →
    ∃ c, cellAt g a b = some c ∧
      cellAt st.1 a b = some (NextGeneration c (sweepCount g st.1 a b))

/-! ## Vocabulary of the random population -/

/-- The cursor of the random source when `Populate` starts row `y`, having
started at `start`: every earlier row took one row draw and, when that draw was
zero, one cell draw for each of its `width` cells. -/
def rowStart (draws : Nat → Nat) (width start : Nat) : Nat → Nat
  | 0 => start
  | y + 1 =>
    if (Int64N 3 ⟨draws, rowStart draws width start y⟩).1 = 0 then
      rowStart draws width start y + 1 + width
    else rowStart draws width start y + 1

/-- The row draw of row `y`: the value of `rand.Int64N(3)` in turn `y` of the
outer loop of `Populate` on a grid `width` cells wide. -/
def rowDraw (r : Rand) (width y : Nat) : Int :=
  (Int64N 3 ⟨r.draws, rowStart r.draws width r.pos y⟩).1

/-- The cell draw of the cell at column `x` of row `y`: the value of
`rand.Int64N(20)` in turn `x` of the inner loop, which runs when the row draw
is zero. -/
def cellDraw (r : Rand) (width x y : Nat) : Int :=
  (Int64N 20 ⟨r.draws, rowStart r.draws width r.pos y + 1 + x⟩).1

/-- The row `Populate` builds when the cursor stands at `p` at the start of the
row: the zero `Cell` everywhere when the row draw is not zero, and otherwise
every cell set from its own draw. -/
def RowDrawn (draws : Nat → Nat) (width p : Nat) (row : List Cell) : Prop :=
  row.length = width ∧
    ((Int64N 3 ⟨draws, p⟩).1 ≠ 0 → ∀ k, k < width → row[k]? = some (0 : Cell)) ∧
    ((Int64N 3 ⟨draws, p⟩).1 = 0 → ∀ k, k < width →
      row[k]? = some (if (Int64N 20 ⟨draws, p + 1 + k⟩).1 = 0 then Alive else Dead))

/-- A random source whose draws are 0, 1, 40, 3, 4, 5, … -/
def sampleRand : Rand := ⟨fun k => if k = 2 then 40 else k, 0⟩

/-! ## Basic facts -/

theorem wrap_eq_self {v : Int} (h : IsInt v) : wrap v = v := by
  unfold IsInt at h
  unfold wrap
  omega

theorem wrap_inBounds_iff {v b : Int}
    (hv : -9223372036854775809 ≤ v ∧ v ≤ 9223372036854775808) (hb : IsInt b) :
    (wrap v ≥ 0 ∧ wrap v < b) ↔ (0 ≤ v ∧ v < b) := by
  unfold IsInt at hb
  unfold wrap
  omega

theorem wrap_of_inBounds {v b : Int} (hb : IsInt b) (h0 : 0 ≤ v) (h1 : v < b) :
    wrap v = v := by
  unfold IsInt at hb
  unfold wrap
  omega

theorem index_eq_some {α : Type} {s : List α} {i : Int} {a : α} :
    index s i = some a ↔ 0 ≤ i ∧ s[i.toNat]? = some a := by
  unfold index
  constructor
  · intro h
    split at h
    · rename_i hc
      exact ⟨hc.1, h⟩
    · cases h
  · rintro ⟨h0, h⟩
    have hlt : i.toNat < s.length := (List.getElem?_eq_some.mp h).1
    rw [if_pos ⟨h0, by omega⟩]
    exact h

theorem index_isSome {α : Type} {s : List α} {i : Int} (h0 : 0 ≤ i) (h1 : i < s.length) :
    ∃ a, index s i = some a := by
  have hlt : i.toNat < s.length := by omega
  exact ⟨s[i.toNat], index_eq_some.mpr ⟨h0, List.getElem?_eq_getElem hlt⟩⟩

theorem index_mem {α : Type} {s : List α} {i : Int} {a : α} (h : index s i = some a) :
    a ∈ s := by
  have := (index_eq_some.mp h).2
  exact List.getElem?_mem this

theorem store_eq_some {α : Type} {s : List α} {i : Int} (v : α) (h0 : 0 ≤ i)
    (h1 : i < s.length) : store s i v = some (s.set i.toNat v) := by
  unfold store
  rw [if_pos ⟨h0, h1⟩]

/-- A row of a well-formed grid, read at an in-range row number. -/
theorem WellFormed.row {g : Grid} (hw : WellFormed g) {y : Int} (h0 : 0 ≤ y) (h1 : y < g.y) :
    ∃ row, index g.Cells y = some row ∧ (row.length : Int) = g.x := by
  obtain ⟨row, hrow⟩ := @index_isSome _ g.Cells _ h0 (by rw [hw.1]; exact h1)
  exact ⟨row, hrow, hw.2 row (index_mem hrow)⟩

/-- A cell of a well-formed grid, read at an in-range position. -/
theorem WellFormed.cell {g : Grid} (hw : WellFormed g) {x y : Int} (hx0 : 0 ≤ x)
    (hx1 : x < g.x) (hy0 : 0 ≤ y) (hy1 : y < g.y) :
    ∃ row c, index g.Cells y = some row ∧ (row.length : Int) = g.x ∧ index row x = some c ∧
      cellAt g x y = some c := by
  obtain ⟨row, hrow, hlen⟩ := hw.row hy0 hy1
  obtain ⟨c, hc⟩ := @index_isSome _ row _ hx0 (by rw [hlen]; exact hx1)
  exact ⟨row, c, hrow, hlen, hc, by simp [cellAt, hrow, hc]⟩

theorem countNeighbor_eq {g : Grid} (hw : WellFormed g) (hi : IntFields g) {x y : Int}
    (hx : IsInt x) (hy : IsInt y) (i i2 : Int) (hi1 : -1 ≤ i ∧ i ≤ 1) (hi2 : -1 ≤ i2 ∧ i2 ≤ 1)
    (acc : Int) :
    countNeighbor g x y i i2 acc =
      some (acc + if i = 0 ∧ i2 = 0 then 0 else contribution g (x + i2) (y + i)) := by
  unfold countNeighbor
  by_cases hc : i = 0 ∧ i2 = 0
  · simp [hc]
  · rw [if_neg hc, if_neg hc]
    have hyb := @wrap_inBounds_iff (y + i) g.y (by unfold IsInt at hy; omega) hi.2
    have hxb := @wrap_inBounds_iff (x + i2) g.x (by unfold IsInt at hx; omega) hi.1
    by_cases hyin : 0 ≤ y + i ∧ y + i < g.y
    · by_cases hxin : 0 ≤ x + i2 ∧ x + i2 < g.x
      · have ey := wrap_of_inBounds hi.2 hyin.1 hyin.2
        have ex := wrap_of_inBounds hi.1 hxin.1 hxin.2
        obtain ⟨row, c, hrow, -, hcell, hat⟩ := hw.cell hxin.1 hxin.2 hyin.1 hyin.2
        simp only [ey, ex, ge_iff_le, hyin, hxin, and_self, if_true, hrow, hcell,
          Option.bind_eq_bind, Option.some_bind, contribution, aliveAt, hat, true_and]
        by_cases hca : c = Alive
        · simp [hca]
        · simp [hca]
      · have : ¬ (wrap (x + i2) ≥ 0 ∧ wrap (x + i2) < g.x) := fun h => hxin (hxb.mp h)
        simp only [this, if_false, ite_self, contribution, aliveAt]
        have : ¬ (0 ≤ x + i2 ∧ x + i2 < g.x ∧ 0 ≤ y + i ∧ y + i < g.y ∧
            cellAt g (x + i2) (y + i) = some Alive) := fun h => hxin ⟨h.1, h.2.1⟩
        simp [this]
    · have : ¬ (wrap (y + i) ≥ 0 ∧ wrap (y + i) < g.y) := fun h => hyin (hyb.mp h)
      simp only [this, if_false, contribution, aliveAt]
      have : ¬ (0 ≤ x + i2 ∧ x + i2 < g.x ∧ 0 ≤ y + i ∧ y + i < g.y ∧
          cellAt g (x + i2) (y + i) = some Alive) := fun h => hyin ⟨h.2.2.1, h.2.2.2.1⟩
      simp [this]

theorem neighborCount_eq_sum (g : Grid) (x y : Int) :
    neighborCount g x y =
      contribution g (x + -1) (y + -1) + contribution g (x + 0) (y + -1)
        + contribution g (x + 1) (y + -1) + contribution g (x + -1) (y + 0)
        + contribution g (x + 1) (y + 0) + contribution g (x + -1) (y + 1)
        + contribution g (x + 0) (y + 1) + contribution g (x + 1) (y + 1) := by
  simp only [neighborCount, offsets, List.countP_cons, List.countP_nil, contribution]
  push_cast
  ring

/-- The loops of `GetAliveNeighborCells` compute the specification's count, at
every centre that is a Go `int`, in range or not. -/
theorem GetAliveNeighborCells_eq {g : Grid} (hw : WellFormed g) (hi : IntFields g) {x y : Int}
    (hx : IsInt x) (hy : IsInt y) :
    GetAliveNeighborCells g x y = some (neighborCount g x y) := by
  unfold GetAliveNeighborCells
  simp only [List.foldlM, Option.bind_eq_bind, Option.pure_def,
    countNeighbor_eq hw hi hx hy (-1) (-1) (by decide) (by decide),
    countNeighbor_eq hw hi hx hy (-1) (0) (by decide) (by decide),
    countNeighbor_eq hw hi hx hy (-1) (1) (by decide) (by decide),
    countNeighbor_eq hw hi hx hy (0) (-1) (by decide) (by decide),
    countNeighbor_eq hw hi hx hy (0) (0) (by decide) (by decide),
    countNeighbor_eq hw hi hx hy (0) (1) (by decide) (by decide),
    countNeighbor_eq hw hi hx hy (1) (-1) (by decide) (by decide),
    countNeighbor_eq hw hi hx hy (1) (0) (by decide) (by decide),
    countNeighbor_eq hw hi hx hy (1) (1) (by decide) (by decide),
    Option.some_bind]
  rw [neighborCount_eq_sum]
  simp


/-! ## Loops -/

theorem forRange_succ {σ : Type} (n : Nat) (body : Int → σ → Option σ) (init : σ) :
    forRange (n + 1) body init = (forRange n body init).bind (body (n : Int)) := by
  unfold forRange
  rw [List.range_succ, List.foldlM_append]
  simp only [Option.bind_eq_bind, List.foldlM, Option.pure_def]
  cases List.foldlM (fun (s : σ) (i : Nat) => body (i : Int) s) init (List.range n) <;> simp

/-- Loop invariant: a body that keeps `P` and never panics below the bound
makes the loop finish in a state where `P` holds. -/
theorem forRange_invariant {σ : Type} (P : Nat → σ → Prop) (n : Nat)
    (body : Int → σ → Option σ) (init : σ) (h0 : P 0 init)
    (hstep : ∀ i s, i < n → P i s → ∃ s', body (i : Int) s = some s' ∧ P (i + 1) s') :
    ∃ s', forRange n body init = some s' ∧ P n s' := by
  induction n with
  | zero => exact ⟨init, by simp [forRange], h0⟩
  | succ k ih =>
    obtain ⟨s, hs, hP⟩ := ih (fun i s hi => hstep i s (by omega))
    obtain ⟨s', hs', hP'⟩ := hstep k s (by omega) hP
    exact ⟨s', by rw [forRange_succ, hs]; exact hs', hP'⟩

/-! ## The sweep of `Walk` -/

theorem WellFormed.setCell {g : Grid} (hw : WellFormed g) (x y : Int) (c : Cell) :
    WellFormed (setCell g x y c) := by
  refine ⟨?_, ?_⟩
  · simpa [GameOfLife.setCell] using hw.1
  · intro row hrow
    simp only [GameOfLife.setCell] at hrow
    by_cases hy : y.toNat < g.Cells.length
    · rcases List.mem_or_eq_of_mem_set hrow with h | h
      · exact hw.2 row h
      · subst h
        rw [List.length_set, List.getD_eq_getElem _ _ hy]
        exact hw.2 _ (List.getElem_mem hy)
    · rw [List.set_eq_of_length_le (by omega)] at hrow
      exact hw.2 row hrow

theorem foldlM_isSome {α β : Type} (f : β → α → Option β)
    (hf : ∀ acc a, ∃ r, f acc a = some r) (l : List α) (init : β) :
    ∃ r, l.foldlM f init = some r := by
  induction l generalizing init with
  | nil => exact ⟨init, rfl⟩
  | cons a l ih =>
    obtain ⟨r, hr⟩ := hf init a
    obtain ⟨r', hr'⟩ := ih r
    exact ⟨r', by simp only [List.foldlM, Option.bind_eq_bind, hr, Option.some_bind, hr']⟩

/-- The guarded index of `GetAliveNeighborCells` is in range on a well-formed
grid, whatever the centre. -/
theorem countNeighbor_isSome {g : Grid} (hw : WellFormed g) (x y i i2 acc : Int) :
    ∃ n, countNeighbor g x y i i2 acc = some n := by
  unfold countNeighbor
  by_cases hc : i = 0 ∧ i2 = 0
  · exact ⟨acc, by rw [if_pos hc]⟩
  · rw [if_neg hc]
    by_cases hyin : wrap (y + i) ≥ 0 ∧ wrap (y + i) < g.y
    · by_cases hxin : wrap (x + i2) ≥ 0 ∧ wrap (x + i2) < g.x
      · obtain ⟨row, c, hrow, -, hcell, -⟩ := hw.cell hxin.1 hxin.2 hyin.1 hyin.2
        simp only [hyin, hxin, and_self, if_true, hrow, hcell, Option.bind_eq_bind,
          Option.some_bind]
        by_cases hca : c = Alive
        · exact ⟨acc + 1, by rw [if_pos hca]⟩
        · exact ⟨acc, by rw [if_neg hca]⟩
      · exact ⟨acc, by simp only [hyin, hxin, and_self, if_true, if_false]⟩
    · exact ⟨acc, by simp only [hyin, if_false]⟩

/-- No index of `GetAliveNeighborCells` is out of range on a well-formed grid,
whatever the centre. -/
theorem GetAliveNeighborCells_isSome {g : Grid} (hw : WellFormed g) (x y : Int) :
    ∃ n, GetAliveNeighborCells g x y = some n := by
  unfold GetAliveNeighborCells
  exact foldlM_isSome _
    (fun acc i => foldlM_isSome _ (fun acc2 i2 => countNeighbor_isSome hw x y i i2 acc2) _ acc)
    _ 0

/-- One turn of the inner loop of `Walk` at an in-range position: it never
panics, it replaces the cell by its next generation for the count taken on the
grid as it is now, and it writes the glyph of the old cell. -/
theorem walkCell_eq {g : Grid} (hw : WellFormed g) {x y : Int}
    (hx0 : 0 ≤ x) (hx1 : x < g.x) (hy0 : 0 ≤ y) (hy1 : y < g.y) (buffer : String) :
    ∃ c n, cellAt g x y = some c ∧ GetAliveNeighborCells g x y = some n ∧
      walkCell y x (g, buffer) =
        some (setCell g x y (NextGeneration c n), buffer ++ glyph c) := by
  obtain ⟨row, c, hrow, hlen, hc, hat⟩ := hw.cell hx0 hx1 hy0 hy1
  obtain ⟨n, hn⟩ := GetAliveNeighborCells_isSome hw x y
  refine ⟨c, n, hat, hn, ?_⟩
  have hget : g.Cells.getD y.toNat [] = row := by
    have := (index_eq_some.mp hrow).2
    simp [List.getD_eq_getElem?_getD, this]
  simp only [walkCell, hrow, hc, hn, Option.bind_eq_bind,
    Option.some_bind, store_eq_some _ hx0 (by rw [hlen]; exact hx1),
    store_eq_some _ hy0 (by rw [hw.1]; exact hy1), Option.pure_def, setCell, hget]

/-- The two loops of `Walk` keep every property of the grid that each single
cell update keeps, and they never panic. -/
theorem sweep_invariant (Inv : Grid → Prop) (X Y : Int)
    (hInv : ∀ g, Inv g → WellFormed g ∧ g.x = X ∧ g.y = Y)
    (hstep : ∀ g x y c n, Inv g → 0 ≤ x → x < X → 0 ≤ y → y < Y → cellAt g x y = some c →
      GetAliveNeighborCells g x y = some n → Inv (setCell g x y (NextGeneration c n)))
    (g : Grid) (buffer : String) (hg : Inv g) :
    ∃ st, forRange g.Cells.length walkRow (g, buffer) = some st ∧ Inv st.1 := by
  obtain ⟨hw, -, hY⟩ := hInv g hg
  have hlen : (g.Cells.length : Int) = Y := by rw [hw.1, hY]
  obtain ⟨st, hst, hP⟩ := forRange_invariant (fun _ (st : Grid × String) => Inv st.1)
    g.Cells.length walkRow (g, buffer) hg (by
      intro i s hi hs
      obtain ⟨hws, hsx, hsy⟩ := hInv s.1 hs
      have hy0 : (0 : Int) ≤ (i : Int) := Int.ofNat_nonneg i
      have hy1 : (i : Int) < Y := by omega
      obtain ⟨row, hrow, hrlen⟩ := hws.row hy0 (by rw [hsy]; exact hy1)
      simp only [walkRow, hrow, Option.bind_eq_bind, Option.some_bind]
      exact forRange_invariant (fun _ (st : Grid × String) => Inv st.1)
        row.length (walkCell (i : Int)) s hs (by
          intro j t hj ht
          obtain ⟨t1, t2⟩ := t
          obtain ⟨hwt, htx, hty⟩ := hInv t1 ht
          have hx0 : (0 : Int) ≤ (j : Int) := Int.ofNat_nonneg j
          have hx1 : (j : Int) < X := by omega
          obtain ⟨c, n, hc, hn, hwalk⟩ := walkCell_eq hwt hx0 (by rw [htx]; exact hx1) hy0
            (by rw [hty]; exact hy1) t2
          exact ⟨_, hwalk, hstep t1 _ _ c n ht hx0 hx1 hy0 hy1 hc hn⟩))
  exact ⟨st, hst, hP⟩

theorem stringsRepeat_cursorUp {n : Int} (h0 : 0 ≤ n) (h1 : 4 * n ≤ 9223372036854775807) :
    stringsRepeat "\x1b[1A" n = some (String.join (List.replicate n.toNat "\x1b[1A")) := by
  have hsize : ("\x1b[1A".utf8ByteSize : Int) = 4 := by decide
  unfold stringsRepeat
  rw [hsize, if_neg (by omega), if_neg (by omega)]

/-- The header of the frame, `strings.Repeat("\033[1A", g.y+1)`, on a grid
whose header fits. -/
theorem Walk_header {g : Grid} (hw : WellFormed g) (hf : FrameFits g) :
    stringsRepeat "\x1b[1A" (wrap (g.y + 1)) =
      some (String.join (List.replicate (g.y + 1).toNat "\x1b[1A")) := by
  have h0 : 0 ≤ g.y := by rw [← hw.1]; exact Int.ofNat_nonneg _
  unfold FrameFits at hf
  have hwrap : wrap (g.y + 1) = g.y + 1 := wrap_eq_self (by unfold IsInt; omega)
  rw [hwrap]
  exact stringsRepeat_cursorUp (by omega) hf

/-- `Walk` keeps every property that each single cell update keeps, and it
does not panic. -/
theorem Walk_invariant (Inv : Grid → Prop) (X Y : Int)
    (hInv : ∀ g, Inv g → WellFormed g ∧ g.x = X ∧ g.y = Y)
    (hstep : ∀ g x y c n, Inv g → 0 ≤ x → x < X → 0 ≤ y → y < Y → cellAt g x y = some c →
      GetAliveNeighborCells g x y = some n → Inv (setCell g x y (NextGeneration c n)))
    (g : Grid) (hg : Inv g) (hf : FrameFits g) :
    ∃ g' out, Walk g = some (g', out) ∧ Inv g' := by
  obtain ⟨hw, -, -⟩ := hInv g hg
  obtain ⟨st, hst, hP⟩ := sweep_invariant Inv X Y hInv hstep g
    (String.join (List.replicate (g.y + 1).toNat "\x1b[1A")) hg
  refine ⟨st.1, st.2 ++ "\n", ?_, hP⟩
  simp only [Walk, Walk_header hw hf, Option.bind_eq_bind, Option.some_bind, hst,
    Option.pure_def]

theorem set_self {α : Type} {l : List α} {i : Nat} {a : α} (h : l[i]? = some a) :
    l.set i a = l := by
  apply List.ext_getElem?
  intro j
  rw [List.getElem?_set]
  by_cases hij : i = j
  · subst hij
    have hlt : i < l.length := (List.getElem?_eq_some.mp h).1
    simp [hlt, h]
  · simp [hij]

/-- Writing back the value a cell already has changes nothing. -/
theorem setCell_self {g : Grid} {x y : Int} {c : Cell} (h : cellAt g x y = some c) :
    setCell g x y c = g := by
  unfold cellAt at h
  cases hrow : index g.Cells y with
  | none => simp [hrow] at h
  | some row =>
    simp only [hrow, Option.some_bind] at h
    have h1 := (index_eq_some.mp hrow).2
    have h2 := (index_eq_some.mp h).2
    have hget : g.Cells.getD y.toNat [] = row := by simp [List.getD_eq_getElem?_getD, h1]
    cases g with
    | mk gx gy cells =>
      simp only [setCell, Grid.mk.injEq, true_and] at hget h1 ⊢
      rw [hget, set_self h2]
      exact set_self h1

/-- A grid on which the rule changes no cell is left as it is by `Walk`: the
in-place sweep then reads the start-of-step grid throughout. -/
theorem Walk_fixed {g : Grid} (hw : WellFormed g) (hi : IntFields g) (hf : FrameFits g)
    (hfix : ∀ x y c, 0 ≤ x → x < g.x → 0 ≤ y → y < g.y → cellAt g x y = some c →
      NextGeneration c (neighborCount g x y) = c) :
    ∃ out, Walk g = some (g, out) := by
  obtain ⟨g', out, hwalk, hg'⟩ := Walk_invariant (fun t => t = g) g.x g.y
    (by intro t ht; subst ht; exact ⟨hw, rfl, rfl⟩)
    (by
      intro t x y c n ht hx0 hx1 hy0 hy1 hc hn
      subst ht
      have hx : IsInt x := by have := hi.1; unfold IsInt at *; omega
      have hy : IsInt y := by have := hi.2; unfold IsInt at *; omega
      rw [GetAliveNeighborCells_eq hw hi hx hy] at hn
      rw [← Option.some.inj hn, hfix x y c hx0 hx1 hy0 hy1 hc]
      exact setCell_self hc)
    g rfl hf
  exact ⟨out, by rw [hwalk, hg']⟩


/-! ## Counting -/

theorem contribution_cases (g : Grid) (x y : Int) :
    contribution g x y = 0 ∨
      (contribution g x y = 1 ∧ 0 ≤ x ∧ x < g.x ∧ 0 ≤ y ∧ y < g.y ∧
        cellAt g x y = some Alive) := by
  unfold contribution aliveAt
  by_cases h : 0 ≤ x ∧ x < g.x ∧ 0 ≤ y ∧ y < g.y ∧ cellAt g x y = some Alive
  · right
    simp only [h, and_self, decide_True, if_true]
  · left
    simp only [h, decide_False, Bool.false_eq_true, if_false]

theorem contribution_of_alive {g : Grid} {x y : Int} (hx0 : 0 ≤ x) (hx1 : x < g.x)
    (hy0 : 0 ≤ y) (hy1 : y < g.y) (h : cellAt g x y = some Alive) :
    contribution g x y = 1 := by
  unfold contribution aliveAt
  simp [hx0, hx1, hy0, hy1, h]

theorem contribution_of_not_alive {g : Grid} {x y : Int} (h : cellAt g x y ≠ some Alive) :
    contribution g x y = 0 := by
  rcases contribution_cases g x y with h0 | h1
  · exact h0
  · exact absurd h1.2.2.2.2.2 h

theorem neighborCount_bounds (g : Grid) (x y : Int) :
    0 ≤ neighborCount g x y ∧ neighborCount g x y ≤ 8 := by
  rw [neighborCount_eq_sum]
  have h1 := contribution_cases g (x + -1) (y + -1)
  have h2 := contribution_cases g (x + 0) (y + -1)
  have h3 := contribution_cases g (x + 1) (y + -1)
  have h4 := contribution_cases g (x + -1) (y + 0)
  have h5 := contribution_cases g (x + 1) (y + 0)
  have h6 := contribution_cases g (x + -1) (y + 1)
  have h7 := contribution_cases g (x + 0) (y + 1)
  have h8 := contribution_cases g (x + 1) (y + 1)
  omega

theorem cellAt_mem {g : Grid} {x y : Int} {c : Cell} (h : cellAt g x y = some c) :
    ∃ row ∈ g.Cells, c ∈ row := by
  unfold cellAt at h
  cases hrow : index g.Cells y with
  | none => simp [hrow] at h
  | some row =>
    simp only [hrow, Option.some_bind] at h
    exact ⟨row, index_mem hrow, index_mem h⟩

/-! ## Construction -/

theorem make_eq_some {α : Type} {size n : Int} (h : 0 ≤ n) (hfit : size * n ≤ maxAlloc)
    (zero : α) : make size n zero = some (List.replicate n.toNat zero) := by
  unfold make
  rw [if_neg (by omega)]

theorem make_eq_none {α : Type} {size n : Int} (h : n < 0 ∨ size * n > maxAlloc) (zero : α) :
    make size n zero = none := by
  unfold make
  rw [if_pos h]

/-- A loop whose body panics in every turn panics as soon as it has a turn. -/
theorem forRange_eq_none {σ : Type} (n : Nat) (body : Int → σ → Option σ) (init : σ)
    (hbody : ∀ i s, body i s = none) : forRange (n + 1) body init = none := by
  rw [forRange_succ]
  cases forRange n body init with
  | none => rfl
  | some s => exact hbody _ s

/-- The grid `NewGrid` returns: every row `make([]Cell, x)`. -/
theorem NewGrid_eq {x y : Int} (hx : 0 ≤ x) (hy : 0 ≤ y) (hxfit : 8 * x ≤ maxAlloc)
    (hyfit : 24 * y ≤ maxAlloc) :
    NewGrid x y = some ⟨x, y, List.replicate y.toNat (List.replicate x.toNat (0 : Cell))⟩ := by
  obtain ⟨cells, hcells, hlen, hall⟩ := forRange_invariant
    (fun i (cs : List (List Cell)) => cs.length = y.toNat ∧
      ∀ j, j < i → cs[j]? = some (List.replicate x.toNat (0 : Cell)))
    y.toNat
    (fun i cs => do
      let row ← make 8 x (0 : Cell)
      store cs i row)
    (List.replicate y.toNat ([] : List Cell))
    ⟨by simp, by intro j hj; omega⟩
    (by
      intro i cs hi hcs
      refine ⟨cs.set i (List.replicate x.toNat (0 : Cell)), ?_, ?_, ?_⟩
      · simp only [make_eq_some hx hxfit, Option.bind_eq_bind, Option.some_bind]
        rw [store_eq_some _ (Int.ofNat_nonneg i) (by omega)]
        simp
      · rw [List.length_set]; exact hcs.1
      · intro j hj
        rw [List.getElem?_set]
        by_cases hij : i = j
        · simp [hij, ← hcs.1]; omega
        · rw [if_neg hij]; exact hcs.2 j (by omega))
  have hrep : cells = List.replicate y.toNat (List.replicate x.toNat (0 : Cell)) := by
    rw [List.eq_replicate_iff]
    refine ⟨hlen, ?_⟩
    intro b hb
    obtain ⟨j, hj⟩ := List.mem_iff_getElem?.mp hb
    have hjlt : j < cells.length := (List.getElem?_eq_some.mp hj).1
    have := hall j (by omega)
    rw [hj] at this
    exact Option.some.inj this
  simp only [NewGrid, make_eq_some hy hyfit, Option.bind_eq_bind, Option.some_bind,
    List.length_replicate, Option.pure_def]
  simp only [Option.bind_eq_bind] at hcells
  rw [hcells]
  simp [hrep]

/-- `NewGrid` panics in its first `make` on a height that is negative or beyond
the limit. -/
theorem NewGrid_eq_none_of_height {x y : Int} (h : y < 0 ∨ 24 * y > maxAlloc) :
    NewGrid x y = none := by
  simp only [NewGrid, make_eq_none h, Option.bind_eq_bind, Option.none_bind]

/-- `NewGrid` panics in the `make` of its first row on a width that is negative
or beyond the limit, when there is a row to build. -/
theorem NewGrid_eq_none_of_width {x y : Int} (hy : 0 < y) (hyfit : 24 * y ≤ maxAlloc)
    (h : x < 0 ∨ 8 * x > maxAlloc) : NewGrid x y = none := by
  obtain ⟨n, hn⟩ : ∃ n : Nat, y.toNat = n + 1 := ⟨y.toNat - 1, by omega⟩
  simp only [NewGrid, make_eq_some (le_of_lt hy) hyfit, Option.bind_eq_bind, Option.some_bind,
    List.length_replicate, hn]
  rw [forRange_eq_none n _ _ (by
    intro i cs
    simp only [make_eq_none h, Option.none_bind])]
  rfl

/-- Whenever `NewGrid` returns, the arguments were within the limits of `make`
and the grid is `y` rows of `x` zero cells. -/
theorem NewGrid_eq_some {x y : Int} {g : Grid} (h : NewGrid x y = some g) :
    0 ≤ y ∧ 24 * y ≤ maxAlloc ∧ (y = 0 ∨ (0 ≤ x ∧ 8 * x ≤ maxAlloc)) ∧
      g = ⟨x, y, List.replicate y.toNat (List.replicate x.toNat (0 : Cell))⟩ := by
  by_cases hy : y < 0 ∨ 24 * y > maxAlloc
  · rw [NewGrid_eq_none_of_height hy] at h
    cases h
  · have hy0 : 0 ≤ y := by omega
    have hyfit : 24 * y ≤ maxAlloc := by omega
    by_cases hzero : y = 0
    · subst hzero
      have hnew : NewGrid x 0 = some ⟨x, 0, []⟩ := by
        simp only [NewGrid, make_eq_some (le_refl 0) hyfit, Option.bind_eq_bind,
          Option.some_bind]
        rfl
      rw [hnew] at h
      exact ⟨hy0, hyfit, Or.inl rfl, (Option.some.inj h).symm⟩
    · by_cases hx : x < 0 ∨ 8 * x > maxAlloc
      · rw [NewGrid_eq_none_of_width (by omega) hyfit hx] at h
        cases h
      · have hx0 : 0 ≤ x := by omega
        have hxfit : 8 * x ≤ maxAlloc := by omega
        rw [NewGrid_eq hx0 hy0 hxfit hyfit] at h
        exact ⟨hy0, hyfit, Or.inr ⟨hx0, hxfit⟩, (Option.some.inj h).symm⟩

/-! ## Population -/

theorem populateCell_length {n : Nat} {j : Nat} (hj : j < n) (st : List Cell × Rand)
    (hlen : st.1.length = n) :
    ∃ st', populateCell (j : Int) st = some st' ∧ st'.1.length = n := by
  have h0 : (0 : Int) ≤ (j : Int) := Int.ofNat_nonneg j
  have h1 : (j : Int) < st.1.length := by omega
  unfold populateCell
  by_cases hd : Int.tmod (Int64N 20 st.2).1 20 = 0
  · simp only [hd, if_true, store_eq_some _ h0 h1, Option.map_some']
    exact ⟨_, rfl, by simp [hlen]⟩
  · simp only [hd, if_false, store_eq_some _ h0 h1, Option.map_some']
    exact ⟨_, rfl, by simp [hlen]⟩

/-- One turn of the outer loop of `Populate` on a well-formed grid: it does not
panic and the grid stays well-formed. -/
theorem populateLine_wellFormed {g : Grid} (hw : WellFormed g) (hfit : RowFits g) {i : Nat}
    (hi : (i : Int) < g.y) (r : Rand) :
    ∃ st, populateLine (i : Int) (g, r) = some st ∧ WellFormed st.1 ∧ st.1.x = g.x ∧
      st.1.y = g.y := by
  have h0 : (0 : Int) ≤ (i : Int) := Int.ofNat_nonneg i
  obtain ⟨row, hrow, hrlen⟩ := hw.row h0 hi
  have hx : 0 ≤ g.x := by rw [← hrlen]; exact Int.ofNat_nonneg _
  have hfill : ∃ filled : List Cell × Rand,
      populateLine (i : Int) (g, r) = some (⟨g.x, g.y, g.Cells.set i filled.1⟩, filled.2) ∧
        filled.1.length = g.x.toNat := by
    have hstore : ∀ line : List Cell, store g.Cells (i : Int) line = some (g.Cells.set i line) := by
      intro line
      rw [store_eq_some line h0 (by rw [hw.1]; exact hi), Int.toNat_ofNat]
    by_cases hd : Int.tmod (Int64N 3 r).1 3 = 0
    · obtain ⟨filled, hfilled, hflen⟩ := forRange_invariant
        (fun _ (st : List Cell × Rand) => st.1.length = g.x.toNat)
        g.x.toNat populateCell (List.replicate g.x.toNat (0 : Cell), (Int64N 3 r).2) (by simp)
        (fun j st hj hst => populateCell_length hj st hst)
      refine ⟨filled, ?_, hflen⟩
      simp only [populateLine, make_eq_some hx hfit, Option.bind_eq_bind, Option.some_bind, hd,
        if_true, hfilled, hstore, Option.pure_def]
    · refine ⟨(List.replicate g.x.toNat (0 : Cell), (Int64N 3 r).2), ?_, by simp⟩
      simp only [populateLine, make_eq_some hx hfit, Option.bind_eq_bind, Option.some_bind, hd,
        if_false, hstore, Option.pure_def]
  obtain ⟨filled, hfilled, hflen⟩ := hfill
  refine ⟨_, hfilled, ⟨?_, ?_⟩, rfl, rfl⟩
  · simpa using hw.1
  · intro row' hrow'
    rcases List.mem_or_eq_of_mem_set hrow' with h | h
    · exact hw.2 row' h
    · show (row'.length : Int) = g.x
      rw [h, hflen]; omega

/-- `Populate` on a well-formed grid whose rows are within the limit of `make`,
for every random source: it does not panic and the grid stays well-formed,
with the same `x` and `y`. -/
theorem Populate_wellFormed {g : Grid} (hw : WellFormed g) (hfit : RowFits g) (r : Rand) :
    ∃ st, Populate g r = some st ∧ WellFormed st.1 ∧ st.1.x = g.x ∧ st.1.y = g.y := by
  unfold Populate
  exact forRange_invariant
    (fun _ (st : Grid × Rand) => WellFormed st.1 ∧ st.1.x = g.x ∧ st.1.y = g.y)
    g.y.toNat populateLine (g, r) ⟨hw, rfl, rfl⟩
    (by
      intro i st hi hst
      obtain ⟨t, r'⟩ := st
      obtain ⟨hwt, htx, hty⟩ := hst
      obtain ⟨st', hst', hw', hx', hy'⟩ := populateLine_wellFormed hwt
        (show RowFits t by unfold RowFits; rw [htx]; exact hfit)
        (show (i : Int) < t.y by rw [hty]; omega) r'
      exact ⟨st', hst', hw', by rw [hx', htx], by rw [hy', hty]⟩)


theorem cellAt_inBounds {g : Grid} (hw : WellFormed g) {x y : Int} {c : Cell}
    (h : cellAt g x y = some c) : 0 ≤ x ∧ x < g.x ∧ 0 ≤ y ∧ y < g.y := by
  unfold cellAt at h
  cases hrow : index g.Cells y with
  | none => simp [hrow] at h
  | some row =>
    simp only [hrow, Option.some_bind] at h
    have hlen := hw.2 row (index_mem hrow)
    have hy : 0 ≤ y ∧ y < g.Cells.length := by
      unfold index at hrow
      by_contra hcon
      rw [if_neg hcon] at hrow
      cases hrow
    have hx : 0 ≤ x ∧ x < row.length := by
      unfold index at h
      by_contra hcon
      rw [if_neg hcon] at h
      cases h
    have := hw.1
    omega

/-- Around a cell of the block there are 3 cells of the block, around any
other position at most 2. -/
theorem blockCell_neighbors (x y : Int) (hx0 : 0 ≤ x) (hy0 : 0 ≤ y) :
    ((x = 1 ∨ x = 2) ∧ (y = 1 ∨ y = 2) →
      blockCell (x + -1) (y + -1) + blockCell (x + 0) (y + -1) + blockCell (x + 1) (y + -1)
        + blockCell (x + -1) (y + 0) + blockCell (x + 1) (y + 0)
        + blockCell (x + -1) (y + 1) + blockCell (x + 0) (y + 1)
        + blockCell (x + 1) (y + 1) = 3) ∧
    (¬ ((x = 1 ∨ x = 2) ∧ (y = 1 ∨ y = 2)) →
      blockCell (x + -1) (y + -1) + blockCell (x + 0) (y + -1) + blockCell (x + 1) (y + -1)
        + blockCell (x + -1) (y + 0) + blockCell (x + 1) (y + 0)
        + blockCell (x + -1) (y + 1) + blockCell (x + 0) (y + 1)
        + blockCell (x + 1) (y + 1) ≤ 2) := by
  obtain ⟨a, ha0, ha4, hax⟩ : ∃ a : Int, 0 ≤ a ∧ a ≤ 4 ∧ (a = x ∨ (4 ≤ x ∧ a = 4)) :=
    ⟨min x 4, by omega, by omega, by omega⟩
  obtain ⟨b, hb0, hb4, hby⟩ : ∃ b : Int, 0 ≤ b ∧ b ≤ 4 ∧ (b = y ∨ (4 ≤ y ∧ b = 4)) :=
    ⟨min y 4, by omega, by omega, by omega⟩
  have clamp : ∀ dx dy : Int, -1 ≤ dx → dx ≤ 1 → -1 ≤ dy → dy ≤ 1 →
      blockCell (x + dx) (y + dy) = blockCell (a + dx) (b + dy) := by
    intro dx dy h1 h2 h3 h4
    unfold blockCell
    by_cases hp : (x + dx = 1 ∨ x + dx = 2) ∧ (y + dy = 1 ∨ y + dy = 2)
    · rw [if_pos hp, if_pos (by omega)]
    · rw [if_neg hp, if_neg (by omega)]
  have hiff : ((x = 1 ∨ x = 2) ∧ (y = 1 ∨ y = 2)) ↔ ((a = 1 ∨ a = 2) ∧ (b = 1 ∨ b = 2)) := by
    omega
  rw [hiff, clamp (-1) (-1) (by decide) (by decide) (by decide) (by decide),
    clamp 0 (-1) (by decide) (by decide) (by decide) (by decide),
    clamp 1 (-1) (by decide) (by decide) (by decide) (by decide),
    clamp (-1) 0 (by decide) (by decide) (by decide) (by decide),
    clamp 1 0 (by decide) (by decide) (by decide) (by decide),
    clamp (-1) 1 (by decide) (by decide) (by decide) (by decide),
    clamp 0 1 (by decide) (by decide) (by decide) (by decide),
    clamp 1 1 (by decide) (by decide) (by decide) (by decide)]
  clear hax hby clamp hiff
  interval_cases a <;> interval_cases b <;> decide

/-! ## The claims -/

/-- C1 (simultaneity), evaluated on the row of three Alive cells: `Walk` leaves
all three cells Dead, while the double-buffered reference step keeps the middle
cell Alive (it is Alive with 2 Alive neighbours at the start of the step); the
in-place sweep counts the already-updated cell `(0,0)` as a neighbour of
`(1,0)`. -/
theorem Walk_rowOfThree_not_simultaneous :
    (Walk rowOfThree).map (fun r => r.1) = some ⟨3, 1, [[Dead, Dead, Dead]]⟩ ∧
      referenceStep rowOfThree = ⟨3, 1, [[Dead, Alive, Dead]]⟩ ∧
      cellAt rowOfThree 1 0 = some Alive ∧
      GetAliveNeighborCells rowOfThree 1 0 = some 2 ∧
      NextGeneration Alive 2 = Alive := by
  decide

/-- C2 as stated fails: the one cell of `NewGrid(1, 1)` is Alive, not Dead. -/
theorem NewGrid_one_cell_alive :
    NewGrid 1 1 = some ⟨1, 1, [[Alive]]⟩ ∧
      ¬ (∀ g, NewGrid 1 1 = some g → ∀ row ∈ g.Cells, ∀ c ∈ row, c = Dead) := by
  have h : NewGrid 1 1 = some ⟨1, 1, [[Alive]]⟩ := by decide
  refine ⟨h, fun hall => ?_⟩
  have := hall _ h [Alive] (by simp) Alive (by simp)
  exact absurd this (by decide)

/-- C2 amended: for all positive width and height, every cell of the grid that
`NewGrid(width, height)` returns is the zero value of `Cell`, which is Alive;
`NewGrid` returns when both lengths are within the limit of `make` and panics
when one is beyond it. -/
theorem NewGrid_all_alive (width height : Int) (hwidth : 0 < width) (hheight : 0 < height) :
    (∀ g, NewGrid width height = some g →
      g.Cells = List.replicate height.toNat (List.replicate width.toNat Alive) ∧
        ∀ row ∈ g.Cells, ∀ c ∈ row, c = Alive) ∧
    (8 * width ≤ maxAlloc → 24 * height ≤ maxAlloc → ∃ g, NewGrid width height = some g) ∧
    (8 * width > maxAlloc ∨ 24 * height > maxAlloc → NewGrid width height = none) := by
  refine ⟨?_, ?_, ?_⟩
  · intro g hg
    obtain ⟨-, -, -, hgrid⟩ := NewGrid_eq_some hg
    subst hgrid
    refine ⟨rfl, ?_⟩
    intro row hrow c hc
    rw [List.eq_of_mem_replicate hrow] at hc
    exact List.eq_of_mem_replicate hc
  · intro hxfit hyfit
    exact ⟨_, NewGrid_eq (le_of_lt hwidth) (le_of_lt hheight) hxfit hyfit⟩
  · intro hbig
    by_cases hyfit : 24 * height ≤ maxAlloc
    · exact NewGrid_eq_none_of_width hheight hyfit (Or.inr (by omega))
    · exact NewGrid_eq_none_of_height (Or.inr (by omega))

/-- The amended C2 at `NewGrid(3, 2)`. -/
theorem NewGrid_all_alive_witness :
    ∃ g, NewGrid 3 2 = some g ∧
      g.Cells = List.replicate (2 : Int).toNat (List.replicate (3 : Int).toNat Alive) ∧
      ∀ row ∈ g.Cells, ∀ c ∈ row, c = Alive := by
  obtain ⟨g, hg⟩ := (NewGrid_all_alive 3 2 (by decide) (by decide)).2.1 (by decide) (by decide)
  exact ⟨g, hg, (NewGrid_all_alive 3 2 (by decide) (by decide)).1 g hg⟩

/-- C3: on a well-formed grid, at an in-bounds `(x, y)`, `GetAliveNeighborCells`
returns the number of the 8 offsets other than `(0,0)` whose position is in
bounds and Alive, a value between 0 and 8. -/
theorem GetAliveNeighborCells_counts (g : Grid) (x y : Int) (hw : WellFormed g)
    (hi : IntFields g) (hx0 : 0 ≤ x) (hx1 : x < g.x) (hy0 : 0 ≤ y) (hy1 : y < g.y) :
    GetAliveNeighborCells g x y = some (neighborCount g x y) ∧
      0 ≤ neighborCount g x y ∧ neighborCount g x y ≤ 8 ∧
      offsets.length = 8 ∧ ((0 : Int), (0 : Int)) ∉ offsets := by
  have hx : IsInt x := by have := hi.1; unfold IsInt at *; omega
  have hy : IsInt y := by have := hi.2; unfold IsInt at *; omega
  exact ⟨GetAliveNeighborCells_eq hw hi hx hy, (neighborCount_bounds g x y).1,
    (neighborCount_bounds g x y).2, by decide, by decide⟩

/-- C3 on the grid of `TestGetAliveNeighborCells` at `(1, 1)`. -/
theorem GetAliveNeighborCells_counts_witness :
    GetAliveNeighborCells testGrid 1 1 = some (neighborCount testGrid 1 1) ∧
      0 ≤ neighborCount testGrid 1 1 ∧ neighborCount testGrid 1 1 ≤ 8 ∧
      offsets.length = 8 ∧ ((0 : Int), (0 : Int)) ∉ offsets :=
  GetAliveNeighborCells_counts testGrid 1 1 (by decide) (by decide) (by decide) (by decide)
    (by decide) (by decide)

/-- C4: `NextGeneration` follows the transition table: Alive with fewer than 2
gives Dead, Alive with 2 or 3 gives Alive, Alive with more than 3 gives Dead,
Dead with exactly 3 gives Alive, Dead with any other count gives Dead; for
every count, so for each of 0..8. -/
theorem NextGeneration_table (n : Int) :
    (n < 2 → NextGeneration Alive n = Dead) ∧
    (n = 2 ∨ n = 3 → NextGeneration Alive n = Alive) ∧
    (n > 3 → NextGeneration Alive n = Dead) ∧
    (n = 3 → NextGeneration Dead n = Alive) ∧
    (n ≠ 3 → NextGeneration Dead n = Dead) := by
  unfold NextGeneration Alive Dead
  refine ⟨?_, ?_, ?_, ?_, ?_⟩ <;> intro h <;> simp <;> omega

/-- One instance of each row of the table of C4. -/
theorem NextGeneration_table_witness :
    NextGeneration Alive 1 = Dead ∧ NextGeneration Alive 2 = Alive ∧
      NextGeneration Alive 4 = Dead ∧ NextGeneration Dead 3 = Alive ∧
      NextGeneration Dead 2 = Dead :=
  ⟨(NextGeneration_table 1).1 (by decide), (NextGeneration_table 2).2.1 (Or.inl rfl),
    (NextGeneration_table 4).2.2.1 (by decide), (NextGeneration_table 3).2.2.2.1 rfl,
    (NextGeneration_table 2).2.2.2.2 (by decide)⟩

/-- C5 (blinker), evaluated: one `Walk` of the horizontal blinker leaves
`(2,1)`, `(3,1)`, `(1,2)`, `(3,2)` Alive, which is not the vertical blinker
that the reference step gives. -/
theorem Walk_blinker_not_vertical :
    (Walk blinker).map (fun r => r.1) =
        some ⟨5, 5, [[Dead, Dead, Dead, Dead, Dead],
                     [Dead, Dead, Alive, Alive, Dead],
                     [Dead, Alive, Dead, Alive, Dead],
                     [Dead, Dead, Dead, Dead, Dead],
                     [Dead, Dead, Dead, Dead, Dead]]⟩ ∧
      (Walk blinker).map (fun r => r.1) ≠ some blinkerVertical ∧
      referenceStep blinker = blinkerVertical ∧
      referenceStep blinkerVertical = blinker := by
  decide

/-- C6: on a well-formed grid at least 4 wide and 4 high whose Alive cells are
exactly `(1,1)`, `(1,2)`, `(2,1)`, `(2,2)`, `Walk` completes and leaves the
grid as it was. -/
theorem Walk_block_unchanged (g : Grid) (hw : WellFormed g) (hi : IntFields g)
    (hf : FrameFits g) (hx : 4 ≤ g.x) (hy : 4 ≤ g.y)
    (hblock : ∀ x y : Int, cellAt g x y = some Alive ↔ (x = 1 ∨ x = 2) ∧ (y = 1 ∨ y = 2)) :
    ∃ out, Walk g = some (g, out) := by
  have key : ∀ x y : Int, contribution g x y = blockCell x y := by
    intro x y
    unfold blockCell
    by_cases hb : (x = 1 ∨ x = 2) ∧ (y = 1 ∨ y = 2)
    · rw [if_pos hb]
      exact contribution_of_alive (by omega) (by omega) (by omega) (by omega)
        ((hblock x y).mpr hb)
    · rw [if_neg hb]
      exact contribution_of_not_alive (fun h => hb ((hblock x y).mp h))
  apply Walk_fixed hw hi hf
  intro x y c hx0 hx1 hy0 hy1 hc
  have hn := neighborCount_eq_sum g x y
  simp only [key] at hn
  have hcount := blockCell_neighbors x y hx0 hy0
  by_cases hca : c = Alive
  · have hb := (hblock x y).mp (by rw [hc, hca])
    have h3 : neighborCount g x y = 3 := by rw [hn]; exact hcount.1 hb
    rw [h3, hca]
    decide
  · have hb : ¬ ((x = 1 ∨ x = 2) ∧ (y = 1 ∨ y = 2)) := by
      intro hb
      have := (hblock x y).mpr hb
      rw [hc] at this
      exact hca (Option.some.inj this)
    have h3 : neighborCount g x y ≠ 3 := by
      have := hcount.2 hb
      omega
    unfold NextGeneration
    rw [if_neg (fun h => hca h.1), if_neg (fun h => h3 h.2)]

/-- C6 on the 4×4 grid that holds the block and nothing else. -/
theorem Walk_block_unchanged_witness : ∃ out, Walk block = some (block, out) :=
  Walk_block_unchanged block (by decide) (by decide) (by decide) (by decide) (by decide)
    (by
      intro x y
      constructor
      · intro h
        obtain ⟨hx0, hx1, hy0, hy1⟩ := cellAt_inBounds (by decide) h
        have hx4 : x < 4 := hx1
        have hy4 : y < 4 := hy1
        revert h
        interval_cases x <;> interval_cases y <;> decide
      · rintro ⟨hx | hx, hy | hy⟩ <;> subst hx <;> subst hy <;> decide)

/-- C7: on a well-formed grid in which every cell is Dead, `Walk` completes
and leaves every cell Dead (the grid is unchanged). -/
theorem Walk_all_dead (g : Grid) (hw : WellFormed g) (hi : IntFields g) (hf : FrameFits g)
    (hdead : ∀ row ∈ g.Cells, ∀ c ∈ row, c = Dead) :
    ∃ g' out, Walk g = some (g', out) ∧ g' = g ∧ ∀ row ∈ g'.Cells, ∀ c ∈ row, c = Dead := by
  have hnot : ∀ x y : Int, cellAt g x y ≠ some Alive := by
    intro x y h
    obtain ⟨row, hrow, hc⟩ := cellAt_mem h
    exact absurd (hdead row hrow Alive hc) (by decide)
  obtain ⟨out, hout⟩ := Walk_fixed hw hi hf (by
    intro x y c hx0 hx1 hy0 hy1 hc
    obtain ⟨row, hrow, hcrow⟩ := cellAt_mem hc
    have h0 : neighborCount g x y = 0 := by
      rw [neighborCount_eq_sum]
      simp only [contribution_of_not_alive (hnot _ _)]
      rfl
    rw [h0, hdead row hrow c hcrow]
    decide)
  exact ⟨g, out, hout, rfl, hdead⟩

/-- C7 on a 3×2 grid of Dead cells. -/
theorem Walk_all_dead_witness :
    ∃ g' out, Walk allDead = some (g', out) ∧ g' = allDead ∧
      ∀ row ∈ g'.Cells, ∀ c ∈ row, c = Dead :=
  Walk_all_dead allDead (by decide) (by decide) (by decide) (by decide)

/-- C8 as stated fails: `NewGrid` panics in `make` on the Go ints `2^46` as a
width and `2^62` as a height, which are non-negative. -/
theorem NewGrid_panics_beyond_limit :
    IsInt 70368744177664 ∧ NewGrid 70368744177664 1 = none ∧
      IsInt 4611686018427387904 ∧ NewGrid 1 4611686018427387904 = none := by
  decide

/-- C8 amended: `NewGrid(width, height)` with non-negative arguments within the
limit of `make` returns a grid with `x = width`, `y = height` and `height` rows
of `width` cells, and whenever `NewGrid` returns the grid has that shape;
`Walk` and `Populate` (for every random source) complete on a grid of that
shape and leave `x`, `y` and the shape as they were. -/
theorem rectangular_shape :
    (∀ width height : Int, 0 ≤ width → 0 ≤ height → 8 * width ≤ maxAlloc →
      24 * height ≤ maxAlloc →
      ∃ g, NewGrid width height = some g ∧ g.x = width ∧ g.y = height ∧
        (g.Cells.length : Int) = height ∧ ∀ row ∈ g.Cells, (row.length : Int) = width) ∧
    (∀ (width height : Int) (g : Grid), NewGrid width height = some g →
      g.x = width ∧ g.y = height ∧
        (g.Cells.length : Int) = height ∧ ∀ row ∈ g.Cells, (row.length : Int) = width) ∧
    (∀ g : Grid, WellFormed g → FrameFits g →
      ∃ g' out, Walk g = some (g', out) ∧ g'.x = g.x ∧ g'.y = g.y ∧
        (g'.Cells.length : Int) = g.y ∧ ∀ row ∈ g'.Cells, (row.length : Int) = g.x) ∧
    (∀ (g : Grid) (r : Rand), WellFormed g → RowFits g →
      ∃ g' r', Populate g r = some (g', r') ∧ g'.x = g.x ∧ g'.y = g.y ∧
        (g'.Cells.length : Int) = g.y ∧ ∀ row ∈ g'.Cells, (row.length : Int) = g.x) := by
  have hshape : ∀ width height : Int, 0 ≤ height → (height = 0 ∨ 0 ≤ width) →
      ((List.replicate height.toNat (List.replicate width.toNat (0 : Cell))).length : Int)
          = height ∧
        ∀ row ∈ List.replicate height.toNat (List.replicate width.toNat (0 : Cell)),
          (row.length : Int) = width := by
    intro width height hheight hwidth
    refine ⟨by simp only [List.length_replicate]; omega, ?_⟩
    intro row hrow
    have hpos : height.toNat ≠ 0 := by
      intro h0
      rw [h0] at hrow
      cases hrow
    rw [List.eq_of_mem_replicate hrow, List.length_replicate]
    omega
  refine ⟨?_, ?_, ?_, ?_⟩
  · intro width height hwidth hheight hxfit hyfit
    exact ⟨_, NewGrid_eq hwidth hheight hxfit hyfit, rfl, rfl,
      hshape width height hheight (Or.inr hwidth)⟩
  · intro width height g hg
    obtain ⟨hy0, -, hx, hgrid⟩ := NewGrid_eq_some hg
    subst hgrid
    exact ⟨rfl, rfl, hshape width height hy0 (hx.imp id (fun h => h.1))⟩
  · intro g hw hf
    obtain ⟨g', out, hwalk, hw', hx', hy'⟩ := Walk_invariant
      (fun t => WellFormed t ∧ t.x = g.x ∧ t.y = g.y) g.x g.y (fun t ht => ht)
      (fun t x y c n ht _ _ _ _ _ _ => ⟨ht.1.setCell x y _, ht.2.1, ht.2.2⟩)
      g ⟨hw, rfl, rfl⟩ hf
    refine ⟨g', out, hwalk, hx', hy', ?_, ?_⟩
    · rw [hw'.1, hy']
    · intro row hrow
      rw [hw'.2 row hrow, hx']
  · intro g r hw hfit
    obtain ⟨st, hst, hw', hx', hy'⟩ := Populate_wellFormed hw hfit r
    refine ⟨st.1, st.2, hst, hx', hy', ?_, ?_⟩
    · rw [hw'.1, hy']
    · intro row hrow
      rw [hw'.2 row hrow, hx']

/-- The amended C8 at `NewGrid(3, 2)` and on the grid of
`TestGetAliveNeighborCells`, with the random source that draws 0, 1, 2, … -/
theorem rectangular_shape_witness :
    (∃ g, NewGrid 3 2 = some g ∧ g.x = 3 ∧ g.y = 2 ∧
        (g.Cells.length : Int) = 2 ∧ ∀ row ∈ g.Cells, (row.length : Int) = 3) ∧
    (∃ g' out, Walk testGrid = some (g', out) ∧ g'.x = testGrid.x ∧ g'.y = testGrid.y ∧
        (g'.Cells.length : Int) = testGrid.y ∧
        ∀ row ∈ g'.Cells, (row.length : Int) = testGrid.x) ∧
    (∃ g' r', Populate testGrid ⟨fun k => k, 0⟩ = some (g', r') ∧ g'.x = testGrid.x ∧
        g'.y = testGrid.y ∧ (g'.Cells.length : Int) = testGrid.y ∧
        ∀ row ∈ g'.Cells, (row.length : Int) = testGrid.x) :=
  ⟨rectangular_shape.1 3 2 (by decide) (by decide) (by decide) (by decide),
    rectangular_shape.2.2.1 testGrid (by decide) (by decide),
    rectangular_shape.2.2.2 testGrid ⟨fun k => k, 0⟩ (by decide) (by decide)⟩

/-- C9: on a well-formed grid (zero width or height included) no slice index
of the two loops of `Walk`, nor of the `GetAliveNeighborCells` calls they make,
is out of range, whatever the buffer holds; and `Walk` as a whole completes
when the cursor-up header it writes first fits in a Go string. -/
theorem Walk_never_faults (g : Grid) (hw : WellFormed g) :
    (∀ buffer : String, ∃ st, forRange g.Cells.length walkRow (g, buffer) = some st) ∧
    (∀ x y : Int, ∃ n, GetAliveNeighborCells g x y = some n) ∧
    (FrameFits g → ∃ g' out, Walk g = some (g', out)) := by
  refine ⟨?_, fun x y => GetAliveNeighborCells_isSome hw x y, ?_⟩
  · intro buffer
    obtain ⟨st, hst, -⟩ := sweep_invariant
      (fun t => WellFormed t ∧ t.x = g.x ∧ t.y = g.y) g.x g.y (fun t ht => ht)
      (fun t x y c n ht _ _ _ _ _ _ => ⟨ht.1.setCell x y _, ht.2.1, ht.2.2⟩)
      g buffer ⟨hw, rfl, rfl⟩
    exact ⟨st, hst⟩
  · intro hf
    obtain ⟨g', out, hwalk, -⟩ := Walk_invariant
      (fun t => WellFormed t ∧ t.x = g.x ∧ t.y = g.y) g.x g.y (fun t ht => ht)
      (fun t x y c n ht _ _ _ _ _ _ => ⟨ht.1.setCell x y _, ht.2.1, ht.2.2⟩)
      g ⟨hw, rfl, rfl⟩ hf
    exact ⟨g', out, hwalk⟩

/-- C9 on the 4×4 grid that holds the block. -/
theorem Walk_never_faults_witness :
    (∃ st, forRange block.Cells.length walkRow (block, "") = some st) ∧
    (∃ n, GetAliveNeighborCells block 3 3 = some n) ∧
    (∃ g' out, Walk block = some (g', out)) :=
  ⟨(Walk_never_faults block (by decide)).1 "",
    (Walk_never_faults block (by decide)).2.1 3 3,
    (Walk_never_faults block (by decide)).2.2 (by decide)⟩

/-- C10: on a well-formed grid the count at `(0,0)` is at most 3; at an
in-bounds cell of the boundary it is at most 5; at an interior cell all 8
offsets are in bounds and the count is the number of Alive cells among the 8
surrounding positions, which is 8 when all of them are Alive. -/
theorem GetAliveNeighborCells_hard_edge (g : Grid) (hw : WellFormed g) (hi : IntFields g) :
    (∃ n, GetAliveNeighborCells g 0 0 = some n ∧ n ≤ 3) ∧
    (∀ x y : Int, 0 ≤ x → x < g.x → 0 ≤ y → y < g.y →
      (x = 0 ∨ x = g.x - 1 ∨ y = 0 ∨ y = g.y - 1) →
      ∃ n, GetAliveNeighborCells g x y = some n ∧ n ≤ 5) ∧
    (∀ x y : Int, 0 < x → x < g.x - 1 → 0 < y → y < g.y - 1 →
      (∀ o ∈ offsets, 0 ≤ x + o.1 ∧ x + o.1 < g.x ∧ 0 ≤ y + o.2 ∧ y + o.2 < g.y) ∧
      GetAliveNeighborCells g x y = some (aliveAround g x y) ∧
      ((∀ o ∈ offsets, cellAt g (x + o.1) (y + o.2) = some Alive) →
        GetAliveNeighborCells g x y = some 8)) := by
  have hgx := hi.1
  have hgy := hi.2
  unfold IsInt at hgx hgy
  have cases8 : ∀ x y : Int,
      (contribution g (x + -1) (y + -1) = 0 ∨ contribution g (x + -1) (y + -1) = 1 ∧
        0 ≤ x + -1 ∧ x + -1 < g.x ∧ 0 ≤ y + -1 ∧ y + -1 < g.y) ∧
      (contribution g (x + 0) (y + -1) = 0 ∨ contribution g (x + 0) (y + -1) = 1 ∧
        0 ≤ x + 0 ∧ x + 0 < g.x ∧ 0 ≤ y + -1 ∧ y + -1 < g.y) ∧
      (contribution g (x + 1) (y + -1) = 0 ∨ contribution g (x + 1) (y + -1) = 1 ∧
        0 ≤ x + 1 ∧ x + 1 < g.x ∧ 0 ≤ y + -1 ∧ y + -1 < g.y) ∧
      (contribution g (x + -1) (y + 0) = 0 ∨ contribution g (x + -1) (y + 0) = 1 ∧
        0 ≤ x + -1 ∧ x + -1 < g.x ∧ 0 ≤ y + 0 ∧ y + 0 < g.y) ∧
      (contribution g (x + 1) (y + 0) = 0 ∨ contribution g (x + 1) (y + 0) = 1 ∧
        0 ≤ x + 1 ∧ x + 1 < g.x ∧ 0 ≤ y + 0 ∧ y + 0 < g.y) ∧
      (contribution g (x + -1) (y + 1) = 0 ∨ contribution g (x + -1) (y + 1) = 1 ∧
        0 ≤ x + -1 ∧ x + -1 < g.x ∧ 0 ≤ y + 1 ∧ y + 1 < g.y) ∧
      (contribution g (x + 0) (y + 1) = 0 ∨ contribution g (x + 0) (y + 1) = 1 ∧
        0 ≤ x + 0 ∧ x + 0 < g.x ∧ 0 ≤ y + 1 ∧ y + 1 < g.y) ∧
      (contribution g (x + 1) (y + 1) = 0 ∨ contribution g (x + 1) (y + 1) = 1 ∧
        0 ≤ x + 1 ∧ x + 1 < g.x ∧ 0 ≤ y + 1 ∧ y + 1 < g.y) := by
    intro x y
    refine ⟨?_, ?_, ?_, ?_, ?_, ?_, ?_, ?_⟩ <;>
      (rcases contribution_cases g _ _ with h | h
       · exact Or.inl h
       · exact Or.inr ⟨h.1, h.2.1, h.2.2.1, h.2.2.2.1, h.2.2.2.2.1⟩)
  refine ⟨?_, ?_, ?_⟩
  · refine ⟨_, GetAliveNeighborCells_eq hw hi (by decide) (by decide), ?_⟩
    rw [neighborCount_eq_sum]
    obtain ⟨h1, h2, h3, h4, h5, h6, h7, h8⟩ := cases8 0 0
    omega
  · intro x y hx0 hx1 hy0 hy1 hedge
    refine ⟨_, GetAliveNeighborCells_eq hw hi (by unfold IsInt; omega) (by unfold IsInt; omega),
      ?_⟩
    rw [neighborCount_eq_sum]
    obtain ⟨h1, h2, h3, h4, h5, h6, h7, h8⟩ := cases8 x y
    rcases hedge with h | h | h | h <;> omega
  · intro x y hx0 hx1 hy0 hy1
    have hin : ∀ o ∈ offsets, 0 ≤ x + o.1 ∧ x + o.1 < g.x ∧ 0 ≤ y + o.2 ∧ y + o.2 < g.y := by
      intro o ho
      simp only [offsets, List.mem_cons, List.mem_singleton, List.mem_nil_iff, or_false] at ho
      rcases ho with h | h | h | h | h | h | h | h <;> subst h <;> simp only <;> omega
    have hcount : neighborCount g x y = aliveAround g x y := by
      unfold neighborCount aliveAround
      congr 1
      apply List.countP_congr
      intro o ho
      obtain ⟨a, b, c, d⟩ := hin o ho
      simp [aliveAt, a, b, c, d]
    have hget : GetAliveNeighborCells g x y = some (neighborCount g x y) :=
      GetAliveNeighborCells_eq hw hi (by unfold IsInt; omega) (by unfold IsInt; omega)
    refine ⟨hin, by rw [hget, hcount], ?_⟩
    intro hall
    rw [hget, hcount]
    have : aliveAround g x y = 8 := by
      unfold aliveAround
      have hlen : offsets.countP (fun o => decide (cellAt g (x + o.1) (y + o.2) = some Alive))
          = offsets.length := by
        rw [List.countP_eq_length]
        intro o ho
        simp [hall o ho]
      rw [hlen]
      rfl
    rw [this]

/-- C10 on the grid of `TestGetAliveNeighborCells` at the corner `(0,0)`, the
edge cell `(2,0)` and the interior cell `(1,1)`, and at the centre of a 3×3 grid
of Alive cells. -/
theorem GetAliveNeighborCells_hard_edge_witness :
    (∃ n, GetAliveNeighborCells testGrid 0 0 = some n ∧ n ≤ 3) ∧
    (∃ n, GetAliveNeighborCells testGrid 2 0 = some n ∧ n ≤ 5) ∧
    GetAliveNeighborCells testGrid 1 1 = some (aliveAround testGrid 1 1) ∧
    GetAliveNeighborCells allAlive 1 1 = some 8 :=
  ⟨(GetAliveNeighborCells_hard_edge testGrid (by decide) (by decide)).1,
    (GetAliveNeighborCells_hard_edge testGrid (by decide) (by decide)).2.1 2 0
      (by decide) (by decide) (by decide) (by decide) (by decide),
    ((GetAliveNeighborCells_hard_edge testGrid (by decide) (by decide)).2.2 1 1
      (by decide) (by decide) (by decide) (by decide)).2.1,
    ((GetAliveNeighborCells_hard_edge allAlive (by decide) (by decide)).2.2 1 1
      (by decide) (by decide) (by decide) (by decide)).2.2 (by decide)⟩

/-! ## Counting at any centre -/

/-- On a grid without an Alive cell no turn of the loops changes the counter,
whatever the centre. -/
theorem countNeighbor_of_no_alive {g : Grid} (hw : WellFormed g)
    (hdead : ∀ row ∈ g.Cells, ∀ c ∈ row, c ≠ Alive) (x y i i2 acc : Int) :
    countNeighbor g x y i i2 acc = some acc := by
  unfold countNeighbor
  by_cases hc : i = 0 ∧ i2 = 0
  · rw [if_pos hc]
  · rw [if_neg hc]
    by_cases hyin : wrap (y + i) ≥ 0 ∧ wrap (y + i) < g.y
    · by_cases hxin : wrap (x + i2) ≥ 0 ∧ wrap (x + i2) < g.x
      · obtain ⟨row, c, hrow, -, hcell, -⟩ := hw.cell hxin.1 hxin.2 hyin.1 hyin.2
        have hca : c ≠ Alive := hdead row (index_mem hrow) c (index_mem hcell)
        simp only [hyin, hxin, and_self, if_true, hrow, hcell, Option.bind_eq_bind,
          Option.some_bind, if_neg hca]
      · simp only [hyin, hxin, and_self, if_true, if_false]
    · simp only [hyin, if_false]

/-! ## The in-place sweep, cell by cell -/

theorem index_eq_getElem? {α : Type} (s : List α) (i : Int) :
    index s i = if 0 ≤ i then s[i.toNat]? else none := by
  unfold index
  by_cases h0 : 0 ≤ i
  · by_cases h1 : i < s.length
    · rw [if_pos ⟨h0, h1⟩, if_pos h0]
    · rw [if_neg (fun h => h1 h.2), if_pos h0]
      exact (List.getElem?_eq_none (by omega)).symm
  · rw [if_neg (fun h => h0 h.1), if_neg h0]

/-- Reading a grid after one cell was replaced. -/
theorem cellAt_setCell {g : Grid} (hw : WellFormed g) {x y : Int} (hx0 : 0 ≤ x)
    (hx1 : x < g.x) (hy0 : 0 ≤ y) (hy1 : y < g.y) (v : Cell) (a b : Int) :
    cellAt (setCell g x y v) a b = if a = x ∧ b = y then some v else cellAt g a b := by
  obtain ⟨row, hrow, hlen⟩ := hw.row hy0 hy1
  have hrow' := (index_eq_some.mp hrow).2
  have hylt : y.toNat < g.Cells.length := (List.getElem?_eq_some.mp hrow').1
  have hget : g.Cells.getD y.toNat [] = row := by
    simp [List.getD_eq_getElem?_getD, hrow']
  have hxlt : x.toNat < row.length := by omega
  simp only [cellAt, setCell, hget, index_eq_getElem?]
  by_cases hb0 : 0 ≤ b
  · simp only [hb0, if_true, List.getElem?_set]
    by_cases hby : b = y
    · subst hby
      simp only [if_true, hylt, Option.some_bind, hrow', and_true]
      by_cases ha0 : 0 ≤ a
      · simp only [ha0, if_true, List.getElem?_set]
        by_cases hax : a = x
        · subst hax
          simp [hxlt]
        · have : x.toNat ≠ a.toNat := by omega
          simp [this, hax]
      · have hax : a ≠ x := by omega
        simp [ha0, hax]
    · have : y.toNat ≠ b.toNat := by omega
      simp [this, hby]
  · have hby : b ≠ y := by omega
    simp [hb0, hby]

/-- Two grids of the same size with the same cell at a position contribute the
same there. -/
theorem contribution_congr {g t : Grid} (hx : t.x = g.x) (hy : t.y = g.y) {a b : Int}
    (h : 0 ≤ a → a < g.x → 0 ≤ b → b < g.y → cellAt t a b = cellAt g a b) :
    contribution t a b = contribution g a b := by
  unfold contribution aliveAt
  rw [hx, hy]
  by_cases hin : 0 ≤ a ∧ a < g.x ∧ 0 ≤ b ∧ b < g.y
  · rw [h hin.1 hin.2.1 hin.2.2.1 hin.2.2.2]
  · have h1 : ¬ (0 ≤ a ∧ a < g.x ∧ 0 ≤ b ∧ b < g.y ∧ cellAt t a b = some Alive) :=
      fun h => hin ⟨h.1, h.2.1, h.2.2.1, h.2.2.2.1⟩
    have h2 : ¬ (0 ≤ a ∧ a < g.x ∧ 0 ≤ b ∧ b < g.y ∧ cellAt g a b = some Alive) :=
      fun h => hin ⟨h.1, h.2.1, h.2.2.1, h.2.2.2.1⟩
    simp only [h1, h2]

/-- The two loops of `Walk` with an invariant that follows the position of the
sweep and the buffer: `Inv i j` holds before the cell at column `j` of row `i`
is processed. -/
theorem sweep_indexed (Inv : Nat → Nat → Grid × String → Prop) (g : Grid)
    (hInv : ∀ i j s, Inv i j s → WellFormed s.1 ∧ s.1.x = g.x ∧ s.1.y = g.y)
    (hrow : ∀ (i : Nat) (s : Grid × String), (i : Int) < g.y → Inv i g.x.toNat s →
      Inv (i + 1) 0 s)
    (hstep : ∀ (i j : Nat) (t : Grid) (buffer : String) (c : Cell) (n : Int),
      (i : Int) < g.y → (j : Int) < g.x → Inv i j (t, buffer) →
      cellAt t (j : Int) (i : Int) = some c →
      GetAliveNeighborCells t (j : Int) (i : Int) = some n →
      Inv i (j + 1) (setCell t (j : Int) (i : Int) (NextGeneration c n), buffer ++ glyph c))
    (buffer : String) (h0 : Inv 0 0 (g, buffer)) :
    ∃ st, forRange g.Cells.length walkRow (g, buffer) = some st ∧
      Inv g.Cells.length 0 st := by
  obtain ⟨hw, -, -⟩ := hInv 0 0 _ h0
  have hlen : (g.Cells.length : Int) = g.y := hw.1
  exact forRange_invariant (fun i (st : Grid × String) => Inv i 0 st)
    g.Cells.length walkRow (g, buffer) h0 (by
      intro i s hi hs
      obtain ⟨hws, hsx, hsy⟩ := hInv i 0 s hs
      have hy0 : (0 : Int) ≤ (i : Int) := Int.ofNat_nonneg i
      have hy1 : (i : Int) < g.y := by omega
      obtain ⟨row, hrow', hrlen⟩ := hws.row hy0 (by rw [hsy]; exact hy1)
      have hrl : row.length = g.x.toNat := by omega
      simp only [walkRow, hrow', Option.bind_eq_bind, Option.some_bind]
      obtain ⟨s', hs', hP⟩ := forRange_invariant (fun j (st : Grid × String) => Inv i j st)
        row.length (walkCell (i : Int)) s hs (by
          intro j t hj ht
          obtain ⟨t1, t2⟩ := t
          obtain ⟨hwt, htx, hty⟩ := hInv i j _ ht
          have hx0 : (0 : Int) ≤ (j : Int) := Int.ofNat_nonneg j
          have hx1 : (j : Int) < g.x := by omega
          obtain ⟨c, n, hc, hn, hwalk⟩ := walkCell_eq hwt hx0 (by rw [htx]; exact hx1) hy0
            (by rw [hty]; exact hy1) t2
          exact ⟨_, hwalk, hstep i j t1 t2 c n hy1 hx1 ht hc hn⟩)
      rw [hrl] at hP
      exact ⟨s', hs', hrow i s' hy1 hP⟩)

theorem contribution_setCell {t : Grid} (hw : WellFormed t) {x y : Int} (hx0 : 0 ≤ x)
    (hx1 : x < t.x) (hy0 : 0 ≤ y) (hy1 : y < t.y) (v : Cell) {a b : Int}
    (hne : ¬ (a = x ∧ b = y)) :
    contribution (setCell t x y v) a b = contribution t a b := by
  have hcell : cellAt (setCell t x y v) a b = cellAt t a b := by
    rw [cellAt_setCell hw hx0 hx1 hy0 hy1, if_neg hne]
  exact @contribution_congr t (setCell t x y v) rfl rfl a b (fun _ _ _ _ => hcell)

/-! ## The frame text -/

theorem join_append_singleton (l : List String) (s : String) :
    String.join (l ++ [s]) = String.join l ++ s := by
  unfold String.join
  rw [List.foldl_append]
  rfl

theorem rowText_append_singleton (l : List Cell) (c : Cell) :
    rowText (l ++ [c]) = rowText l ++ glyph c := by
  unfold rowText
  rw [List.map_append, List.map_singleton, join_append_singleton]

theorem cellAt_eq_some {g : Grid} {j i : Nat} {c : Cell}
    (h : cellAt g (j : Int) (i : Int) = some c) :
    ∃ row, g.Cells[i]? = some row ∧ row[j]? = some c := by
  unfold cellAt at h
  cases hrow : index g.Cells (i : Int) with
  | none => simp [hrow] at h
  | some row =>
    simp only [hrow, Option.some_bind] at h
    have h1 := (index_eq_some.mp hrow).2
    have h2 := (index_eq_some.mp h).2
    simp only [Int.toNat_ofNat] at h1 h2
    exact ⟨row, h1, h2⟩

theorem textBefore_succ {g : Grid} {i j : Nat} {c : Cell}
    (h : cellAt g (j : Int) (i : Int) = some c) :
    textBefore g i (j + 1) = textBefore g i j ++ glyph c := by
  obtain ⟨row, hrow, hc⟩ := cellAt_eq_some h
  have hget : g.Cells.getD i [] = row := by simp [List.getD_eq_getElem?_getD, hrow]
  unfold textBefore
  rw [hget, List.take_succ, hc, Option.toList, rowText_append_singleton, String.append_assoc]

theorem textBefore_next_row {g : Grid} (hw : WellFormed g) {i : Nat} (hi : (i : Int) < g.y) :
    textBefore g (i + 1) 0 = textBefore g i g.x.toNat := by
  obtain ⟨row, hrow, hlen⟩ := hw.row (Int.ofNat_nonneg i) hi
  have hrow' := (index_eq_some.mp hrow).2
  simp only [Int.toNat_ofNat] at hrow'
  have hget : g.Cells.getD i [] = row := by simp [List.getD_eq_getElem?_getD, hrow']
  have hempty : rowText ([] : List Cell) = "" := rfl
  have htake : row.take g.x.toNat = row := List.take_of_length_le (by omega)
  unfold textBefore
  rw [hget, htake, List.take_succ, hrow', Option.toList, List.map_append, List.map_singleton,
    join_append_singleton, List.take_zero, hempty, String.append_empty]

theorem textBefore_all (g : Grid) :
    textBefore g g.Cells.length 0 = String.join (g.Cells.map rowText) := by
  have hempty : rowText ([] : List Cell) = "" := rfl
  unfold textBefore
  rw [List.take_length, List.take_zero, hempty, String.append_empty]

/-! ## What `Walk` leaves behind -/

theorem SweepInv.init {g : Grid} (hw : WellFormed g) (header : String) :
    SweepInv g header 0 0 (g, header) where
  wf := hw
  sameX := rfl
  sameY := rfl
  text := by
    have h : textBefore g 0 0 = "" := rfl
    rw [h, String.append_empty]
  later := fun _ _ _ _ _ _ _ => rfl
  earlier := by
    intro _ a b _ _ hb0 _ hp
    exfalso
    unfold precedes at hp
    omega

theorem SweepInv.next_row {g : Grid} {header : String} {i : Nat} {st : Grid × String}
    (hw : WellFormed g) (hi : (i : Int) < g.y) (h : SweepInv g header i g.x.toNat st) :
    SweepInv g header (i + 1) 0 st where
  wf := h.wf
  sameX := h.sameX
  sameY := h.sameY
  text := by rw [h.text, textBefore_next_row hw hi]
  later := by
    intro a b ha0 ha1 hb0 hb1 hp
    apply h.later a b ha0 ha1 hb0 hb1
    unfold precedes at hp ⊢
    omega
  earlier := by
    intro hint a b ha0 ha1 hb0 hb1 hp
    apply h.earlier hint a b ha0 ha1 hb0 hb1
    unfold precedes at hp ⊢
    omega

theorem SweepInv.step {g : Grid} {header : String} {i j : Nat} {t : Grid} {buffer : String}
    {c : Cell} {n : Int} (hi : (i : Int) < g.y) (hj : (j : Int) < g.x)
    (h : SweepInv g header i j (t, buffer)) (hc : cellAt t (j : Int) (i : Int) = some c)
    (hn : GetAliveNeighborCells t (j : Int) (i : Int) = some n) :
    SweepInv g header i (j + 1)
      (setCell t (j : Int) (i : Int) (NextGeneration c n), buffer ++ glyph c) := by
  have hj0 : (0 : Int) ≤ (j : Int) := Int.ofNat_nonneg j
  have hi0 : (0 : Int) ≤ (i : Int) := Int.ofNat_nonneg i
  have hwt : WellFormed t := h.wf
  have htx : t.x = g.x := h.sameX
  have hty : t.y = g.y := h.sameY
  have hj1 : (j : Int) < t.x := by rw [htx]; exact hj
  have hi1 : (i : Int) < t.y := by rw [hty]; exact hi
  have hlater : ∀ a b : Int, 0 ≤ a → a < g.x → 0 ≤ b → b < g.y →
      ¬ precedes a b (j : Int) (i : Int) → cellAt t a b = cellAt g a b := h.later
  have hcg : cellAt g (j : Int) (i : Int) = some c := by
    rw [← hlater _ _ hj0 hj hi0 hi (by unfold precedes; omega)]; exact hc
  have hset : ∀ (v : Cell) (a b : Int), ¬ (a = (j : Int) ∧ b = (i : Int)) →
      contribution (setCell t (j : Int) (i : Int) v) a b = contribution t a b :=
    fun v a b hne => contribution_setCell hwt hj0 hj1 hi0 hi1 v hne
  have hfollow : ∀ a b : Int, ¬ precedes a b (j : Int) (i : Int) →
      contribution t a b = contribution g a b :=
    fun a b hp => contribution_congr htx hty (fun h1 h2 h3 h4 => hlater a b h1 h2 h3 h4 hp)
  refine ⟨hwt.setCell _ _ _, htx, hty, ?_, ?_, ?_⟩
  · show buffer ++ glyph c = header ++ textBefore g i (j + 1)
    have hb : buffer = header ++ textBefore g i j := h.text
    rw [textBefore_succ hcg, hb, String.append_assoc]
  · intro a b ha0 ha1 hb0 hb1 hp
    show cellAt (setCell t (j : Int) (i : Int) (NextGeneration c n)) a b = cellAt g a b
    have hne : ¬ (a = (j : Int) ∧ b = (i : Int)) := by
      unfold precedes at hp; push_cast at hp; omega
    rw [cellAt_setCell hwt hj0 hj1 hi0 hi1, if_neg hne]
    exact hlater a b ha0 ha1 hb0 hb1 (by unfold precedes at hp ⊢; push_cast at hp; omega)
  · intro hint a b ha0 ha1 hb0 hb1 hp
    show ∃ c', cellAt g a b = some c' ∧
      cellAt (setCell t (j : Int) (i : Int) (NextGeneration c n)) a b =
        some (NextGeneration c' (sweepCount g
          (setCell t (j : Int) (i : Int) (NextGeneration c n)) a b))
    by_cases hhere : a = (j : Int) ∧ b = (i : Int)
    · obtain ⟨ha, hb⟩ := hhere
      subst ha; subst hb
      refine ⟨c, hcg, ?_⟩
      rw [cellAt_setCell hwt hj0 hj1 hi0 hi1, if_pos ⟨rfl, rfl⟩]
      have hit : IntFields t := by unfold IntFields; rw [htx, hty]; exact hint
      have hgx := hint.1
      have hgy := hint.2
      unfold IsInt at hgx hgy
      have hcount := GetAliveNeighborCells_eq hwt hit
        (show IsInt (j : Int) by unfold IsInt; omega)
        (show IsInt (i : Int) by unfold IsInt; omega)
      rw [hn] at hcount
      have hsweep : ∀ v : Cell, sweepCount g (setCell t (j : Int) (i : Int) v)
          (j : Int) (i : Int) = neighborCount t (j : Int) (i : Int) := by
        intro v
        rw [neighborCount_eq_sum]
        unfold sweepCount
        rw [hset v (j + -1) (i + -1) (by omega), hset v (j + 0) (i + -1) (by omega),
          hset v (j + 1) (i + -1) (by omega), hset v (j + -1) (i + 0) (by omega),
          hfollow (j + 1) (i + 0) (by unfold precedes; omega),
          hfollow (j + -1) (i + 1) (by unfold precedes; omega),
          hfollow (j + 0) (i + 1) (by unfold precedes; omega),
          hfollow (j + 1) (i + 1) (by unfold precedes; omega)]
      rw [hsweep, Option.some.inj hcount]
    · have hbefore : precedes a b (j : Int) (i : Int) := by
        unfold precedes at hp ⊢; push_cast at hp; omega
      obtain ⟨c', hc', hcell⟩ := h.earlier hint a b ha0 ha1 hb0 hb1 hbefore
      refine ⟨c', hc', ?_⟩
      rw [cellAt_setCell hwt hj0 hj1 hi0 hi1, if_neg hhere]
      have hsame : sweepCount g (setCell t (j : Int) (i : Int) (NextGeneration c n)) a b =
          sweepCount g t a b := by
        unfold precedes at hbefore
        unfold sweepCount
        rw [hset _ (a + -1) (b + -1) (by omega), hset _ (a + 0) (b + -1) (by omega),
          hset _ (a + 1) (b + -1) (by omega), hset _ (a + -1) (b + 0) (by omega)]
      rw [hsame]
      exact hcell

/-- The result of `Walk` on a well-formed grid whose header fits: the text is
the frame of the grid as it stood at the start, the size is unchanged, and
(the fields being Go ints) every cell holds the next generation of its old
state for the count of the in-place sweep. -/
theorem Walk_result {g : Grid} (hw : WellFormed g) (hf : FrameFits g) :
    ∃ g', Walk g = some (g', frameText g) ∧ WellFormed g' ∧ g'.x = g.x ∧ g'.y = g.y ∧
      (IntFields g → ∀ x y : Int, 0 ≤ x → x < g.x → 0 ≤ y → y < g.y →
        ∃ c, cellAt g x y = some c ∧
          cellAt g' x y = some (NextGeneration c (sweepCount g g' x y))) := by
  obtain ⟨st, hst, hinv⟩ := sweep_indexed
    (SweepInv g (String.join (List.replicate (g.y + 1).toNat "\x1b[1A"))) g
    (fun i j s h => ⟨h.wf, h.sameX, h.sameY⟩)
    (fun i s hi h => h.next_row hw hi)
    (fun i j t buffer c n hi hj h hc hn => h.step hi hj hc hn)
    _ (SweepInv.init hw _)
  obtain ⟨g', out⟩ := st
  refine ⟨g', ?_, hinv.wf, hinv.sameX, hinv.sameY, ?_⟩
  · have hout : out = String.join (List.replicate (g.y + 1).toNat "\x1b[1A") ++
        textBefore g g.Cells.length 0 := hinv.text
    simp only [Walk, Walk_header hw hf, Option.bind_eq_bind, Option.some_bind, hst,
      Option.pure_def, frameText, hout, textBefore_all]
  · intro hint x y hx0 hx1 hy0 hy1
    exact hinv.earlier hint x y hx0 hx1 hy0 hy1 (by
      have := hw.1
      unfold precedes
      omega)

/-! ## The reference step -/

theorem cellAt_of_getElem? {g : Grid} {i j : Nat} {row : List Cell} {c : Cell}
    (hrow : g.Cells[i]? = some row) (hc : row[j]? = some c) :
    cellAt g (j : Int) (i : Int) = some c := by
  simp [cellAt, index_eq_getElem?, hrow, hc]

/-- The reference step leaves a grid as it is exactly when the rule changes
none of its cells. -/
theorem referenceStep_eq_self_iff (g : Grid) :
    referenceStep g = g ↔
      ∀ (x y : Int) (c : Cell), cellAt g x y = some c →
        NextGeneration c (neighborCount g x y) = c := by
  constructor
  · intro h x y c hc
    have hx0 : 0 ≤ x := by
      unfold cellAt at hc
      cases hrow : index g.Cells y with
      | none => simp [hrow] at hc
      | some row =>
        simp only [hrow, Option.some_bind] at hc
        exact (index_eq_some.mp hc).1
    have hy0 : 0 ≤ y := by
      unfold cellAt at hc
      cases hrow : index g.Cells y with
      | none => simp [hrow] at hc
      | some row => exact (index_eq_some.mp hrow).1
    obtain ⟨j, rfl⟩ := Int.eq_ofNat_of_zero_le hx0
    obtain ⟨i, rfl⟩ := Int.eq_ofNat_of_zero_le hy0
    obtain ⟨row, hrow, hcell⟩ := cellAt_eq_some hc
    have hcells : (referenceStep g).Cells[i]? = g.Cells[i]? := by rw [h]
    simp only [referenceStep, List.getElem?_map, List.getElem?_enum, hrow, Option.map_some']
      at hcells
    have hrowEq := Option.some.inj hcells
    have hj : (List.map (fun xc : Nat × Cell =>
        NextGeneration xc.2 (neighborCount g (xc.1 : Int) (i : Int))) row.enum)[j]? = row[j]? := by
      rw [hrowEq]
    simp only [List.getElem?_map, List.getElem?_enum, hcell, Option.map_some'] at hj
    exact Option.some.inj hj
  · intro h
    have hcells : (referenceStep g).Cells = g.Cells := by
      apply List.ext_getElem?
      intro i
      simp only [referenceStep, List.getElem?_map, List.getElem?_enum]
      cases hrow : g.Cells[i]? with
      | none => rfl
      | some row =>
        simp only [Option.map_some']
        congr 1
        apply List.ext_getElem?
        intro j
        simp only [List.getElem?_map, List.getElem?_enum]
        cases hcell : row[j]? with
        | none => rfl
        | some c =>
          simp only [Option.map_some']
          congr 1
          exact h _ _ c (cellAt_of_getElem? hrow hcell)
    cases g with
    | mk gx gy cells =>
      simp only [referenceStep, Grid.mk.injEq, true_and] at hcells ⊢
      exact hcells

theorem sweepCount_self (g : Grid) (x y : Int) : sweepCount g g x y = neighborCount g x y := by
  rw [neighborCount_eq_sum]
  rfl

theorem contribution_of_negative {g : Grid} {x y : Int} (h : x < 0 ∨ y < 0) :
    contribution g x y = 0 := by
  rcases contribution_cases g x y with h0 | h1
  · exact h0
  · omega

/-! ## Population, draw by draw -/

theorem tmod_Int64N (n : Int) (hn : 0 < n) (r : Rand) :
    Int.tmod (Int64N n r).1 n = (Int64N n r).1 := by
  unfold Int64N
  have h0 : 0 ≤ (r.draws r.pos : Int) % n := Int.emod_nonneg _ (by omega)
  have h1 : (r.draws r.pos : Int) % n < n := Int.emod_lt_of_pos _ hn
  rw [Int.tmod_eq_emod h0 (by omega)]
  exact Int.emod_eq_of_lt h0 h1

/-- One turn of the inner loop of `Populate`: the cell is Alive when its draw
is zero and Dead otherwise, and one draw is consumed. -/
theorem populateCell_eq {ln : List Cell} {j : Nat} (hj : j < ln.length)
    (draws : Nat → Nat) (p : Nat) :
    populateCell (j : Int) (ln, ⟨draws, p⟩) =
      some (ln.set j (if (Int64N 20 ⟨draws, p⟩).1 = 0 then Alive else Dead),
        ⟨draws, p + 1⟩) := by
  have h0 : (0 : Int) ≤ (j : Int) := Int.ofNat_nonneg j
  have h1 : (j : Int) < ln.length := by omega
  unfold populateCell
  simp only [tmod_Int64N 20 (by decide), store_eq_some _ h0 h1, Int.toNat_ofNat]
  by_cases hd : (Int64N 20 ⟨draws, p⟩).1 = 0
  · simp only [hd, if_true, Option.map_some']
    rfl
  · simp only [hd, if_false, Option.map_some']
    rfl

/-- The inner loop of `Populate` from the cursor `p`: cell `k` is set from the
draw at `p + k`. -/
theorem populateCells_eq (n : Nat) (draws : Nat → Nat) (p : Nat) :
    ∃ ln, forRange n populateCell (List.replicate n (0 : Cell), ⟨draws, p⟩) =
        some (ln, ⟨draws, p + n⟩) ∧ ln.length = n ∧
      ∀ k, k < n →
        ln[k]? = some (if (Int64N 20 ⟨draws, p + k⟩).1 = 0 then Alive else Dead) := by
  obtain ⟨st, hst, hlen, hcur, hcells⟩ := forRange_invariant
    (fun j (st : List Cell × Rand) => st.1.length = n ∧ st.2 = ⟨draws, p + j⟩ ∧
      ∀ k, k < j →
        st.1[k]? = some (if (Int64N 20 ⟨draws, p + k⟩).1 = 0 then Alive else Dead))
    n populateCell (List.replicate n (0 : Cell), ⟨draws, p⟩)
    ⟨by simp, rfl, by intro k hk; omega⟩
    (by
      intro j st hj hst
      obtain ⟨ln, rnd⟩ := st
      obtain ⟨hlen, hcur, hcells⟩ := hst
      simp only at hlen hcur hcells
      subst hcur
      refine ⟨_, populateCell_eq (by omega) draws (p + j), ?_, rfl, ?_⟩
      · simp [hlen]
      · intro k hk
        simp only [List.getElem?_set]
        by_cases hjk : j = k
        · subst hjk
          simp [hlen, hj]
        · rw [if_neg hjk]
          exact hcells k (by omega))
  obtain ⟨ln, rnd⟩ := st
  simp only at hlen hcur hcells
  subst hcur
  exact ⟨ln, hst, hlen, hcells⟩

/-- One turn of the outer loop of `Populate` on a well-formed grid, the cursor
standing at `p`: row `i` becomes the row drawn from `p`. -/
theorem populateLine_eq {t : Grid} (hw : WellFormed t) (hfit : RowFits t) {i : Nat}
    (hi : (i : Int) < t.y) (draws : Nat → Nat) (p : Nat) :
    ∃ row, RowDrawn draws t.x.toNat p row ∧
      populateLine (i : Int) (t, ⟨draws, p⟩) =
        some (⟨t.x, t.y, t.Cells.set i row⟩,
          ⟨draws, if (Int64N 3 ⟨draws, p⟩).1 = 0 then p + 1 + t.x.toNat else p + 1⟩) := by
  have h0 : (0 : Int) ≤ (i : Int) := Int.ofNat_nonneg i
  obtain ⟨row0, hrow0, hrlen⟩ := hw.row h0 hi
  have hx : 0 ≤ t.x := by rw [← hrlen]; exact Int.ofNat_nonneg _
  have hstore : ∀ ln : List Cell, store t.Cells (i : Int) ln = some (t.Cells.set i ln) := by
    intro ln
    rw [store_eq_some ln h0 (by rw [hw.1]; exact hi), Int.toNat_ofNat]
  have hnext : (Int64N 3 ⟨draws, p⟩).2 = ⟨draws, p + 1⟩ := rfl
  by_cases hd : (Int64N 3 ⟨draws, p⟩).1 = 0
  · obtain ⟨ln, hln, hlen, hcells⟩ := populateCells_eq t.x.toNat draws (p + 1)
    have htm : Int.tmod (Int64N 3 ⟨draws, p⟩).1 3 = 0 := by
      rw [tmod_Int64N 3 (by decide)]; exact hd
    refine ⟨ln, ⟨hlen, fun h => absurd hd h, fun _ => hcells⟩, ?_⟩
    simp only [populateLine, make_eq_some hx hfit, Option.bind_eq_bind, Option.some_bind,
      htm, if_true, hnext, hln, hstore, Option.pure_def, if_pos hd]
  · have htm : ¬ Int.tmod (Int64N 3 ⟨draws, p⟩).1 3 = 0 := by
      rw [tmod_Int64N 3 (by decide)]; exact hd
    refine ⟨List.replicate t.x.toNat (0 : Cell), ⟨by simp, ?_, fun h => absurd h hd⟩, ?_⟩
    · intro _ k hk
      simp [List.getElem?_replicate, hk]
    · simp only [populateLine, make_eq_some hx hfit, Option.bind_eq_bind, Option.some_bind,
        htm, if_false, hnext, hstore, Option.pure_def, if_neg hd]

/-- The result of `Populate` on a well-formed grid whose rows are within the
limit of `make`: row `y` is the row drawn from the cursor at which its turn of
the outer loop started. -/
theorem Populate_eq {g : Grid} (hw : WellFormed g) (hfit : RowFits g) (r : Rand) :
    ∃ g' r', Populate g r = some (g', r') ∧ WellFormed g' ∧ g'.x = g.x ∧ g'.y = g.y ∧
      ∀ y : Nat, (y : Int) < g.y →
        ∃ row, g'.Cells[y]? = some row ∧
          RowDrawn r.draws g.x.toNat (rowStart r.draws g.x.toNat r.pos y) row := by
  obtain ⟨st, hst, hwf, hsx, hsy, -, hrows⟩ := forRange_invariant
    (fun i (st : Grid × Rand) => WellFormed st.1 ∧ st.1.x = g.x ∧ st.1.y = g.y ∧
      st.2 = ⟨r.draws, rowStart r.draws g.x.toNat r.pos i⟩ ∧
      ∀ y : Nat, y < i →
        ∃ row, st.1.Cells[y]? = some row ∧
          RowDrawn r.draws g.x.toNat (rowStart r.draws g.x.toNat r.pos y) row)
    g.y.toNat populateLine (g, r) ⟨hw, rfl, rfl, rfl, by intro y hy; omega⟩
    (by
      intro i st hi hst
      obtain ⟨t, rnd⟩ := st
      obtain ⟨hwt, htx, hty, hcur, hrows⟩ := hst
      simp only at hwt htx hty hcur hrows
      subst hcur
      have hit : (i : Int) < t.y := by rw [hty]; omega
      obtain ⟨row, hdrawn, hline⟩ := populateLine_eq hwt
        (show RowFits t by unfold RowFits; rw [htx]; exact hfit) hit r.draws
        (rowStart r.draws g.x.toNat r.pos i)
      have hdrawn' : RowDrawn r.draws g.x.toNat (rowStart r.draws g.x.toNat r.pos i) row := by
        have h := hdrawn
        rw [htx] at h
        exact h
      have hilt : i < t.Cells.length := by have := hwt.1; omega
      refine ⟨_, hline, ?_, htx, hty, ?_, ?_⟩
      · refine ⟨by simpa using hwt.1, ?_⟩
        intro row' hrow'
        rcases List.mem_or_eq_of_mem_set hrow' with h | h
        · exact hwt.2 row' h
        · show (row'.length : Int) = t.x
          have := hwt.row (Int.ofNat_nonneg i) hit
          rw [h, hdrawn.1]
          obtain ⟨row0, -, hlen0⟩ := this
          omega
      · show (⟨r.draws, _⟩ : Rand) = ⟨r.draws, rowStart r.draws g.x.toNat r.pos (i + 1)⟩
        simp only [rowStart, htx]
      · intro y hy
        show ∃ row', (t.Cells.set i row)[y]? = some row' ∧ _
        rw [List.getElem?_set]
        by_cases hiy : i = y
        · subst hiy
          exact ⟨row, by simp [hilt], hdrawn'⟩
        · rw [if_neg hiy]
          exact hrows y (by omega))
  exact ⟨st.1, st.2, hst, hwf, hsx, hsy, fun y hy => hrows y (by omega)⟩

/-! ## The claims, continued -/

/-- C11, evaluated: on the grid of `TestGetAliveNeighborCells`,
`GetAliveNeighborCells(2, 0)` returns 1 and not the 2 that the case "Edge cell"
of the test expects: of the five in-bounds positions around `(2, 0)` only
`(3, 1)` is Alive, and the Alive centre is not counted. -/
theorem GetAliveNeighborCells_edge :
    GetAliveNeighborCells testGrid 2 0 = some 1 ∧
      GetAliveNeighborCells testGrid 2 0 ≠ some 2 ∧ neighborCount testGrid 2 0 = 1 ∧
      cellAt testGrid 1 0 = some Dead ∧ cellAt testGrid 3 0 = some Dead ∧
      cellAt testGrid 1 1 = some Dead ∧ cellAt testGrid 2 1 = some Dead ∧
      cellAt testGrid 3 1 = some Alive ∧ cellAt testGrid 2 0 = some Alive := by
  decide

/-- C12: on the grid of `TestGetAliveNeighborCells`,
`GetAliveNeighborCells(1, 1)` returns 4: the four diagonal neighbours are
Alive, the four orthogonal ones are Dead, and the centre is Dead. -/
theorem GetAliveNeighborCells_diagonals :
    GetAliveNeighborCells testGrid 1 1 = some 4 ∧
      cellAt testGrid 0 0 = some Alive ∧ cellAt testGrid 2 0 = some Alive ∧
      cellAt testGrid 0 2 = some Alive ∧ cellAt testGrid 2 2 = some Alive ∧
      cellAt testGrid 1 0 = some Dead ∧ cellAt testGrid 0 1 = some Dead ∧
      cellAt testGrid 2 1 = some Dead ∧ cellAt testGrid 1 2 = some Dead ∧
      cellAt testGrid 1 1 = some Dead := by
  decide

/-- C13: on a well-formed grid in which every cell is Dead,
`GetAliveNeighborCells(x, y)` returns 0 at every coordinate, in range or not. -/
theorem GetAliveNeighborCells_all_dead (g : Grid) (hw : WellFormed g)
    (hdead : ∀ row ∈ g.Cells, ∀ c ∈ row, c = Dead) (x y : Int) :
    GetAliveNeighborCells g x y = some 0 := by
  have hna : ∀ row ∈ g.Cells, ∀ c ∈ row, c ≠ Alive := by
    intro row hrow c hc h
    exact absurd ((hdead row hrow c hc).symm.trans h) (by decide)
  unfold GetAliveNeighborCells
  simp only [List.foldlM, Option.bind_eq_bind, Option.pure_def,
    countNeighbor_of_no_alive hw hna, Option.some_bind]

/-- C13 on a 3×2 grid of Dead cells, at a centre outside the grid. -/
theorem GetAliveNeighborCells_all_dead_witness :
    GetAliveNeighborCells allDead (-1) 2 = some 0 :=
  GetAliveNeighborCells_all_dead allDead (by decide) (by decide) (-1) 2

/-- C14: on a well-formed grid, at every pair of Go ints `(x, y)`, negative
and out-of-range centres included, no index of `GetAliveNeighborCells` is out
of range and the result is the number of in-bounds Alive cells among the 8
positions around `(x, y)`; it is 0 when none of them is in bounds and Alive. -/
theorem GetAliveNeighborCells_total (g : Grid) (x y : Int) (hw : WellFormed g)
    (hi : IntFields g) (hx : IsInt x) (hy : IsInt y) :
    GetAliveNeighborCells g x y = some (neighborCount g x y) ∧
      ((∀ o ∈ offsets, aliveAt g (x + o.1) (y + o.2) = false) →
        GetAliveNeighborCells g x y = some 0) := by
  refine ⟨GetAliveNeighborCells_eq hw hi hx hy, fun hnone => ?_⟩
  rw [GetAliveNeighborCells_eq hw hi hx hy]
  have h0 : offsets.countP (fun o => aliveAt g (x + o.1) (y + o.2)) = 0 := by
    rw [List.countP_eq_zero]
    intro o ho
    simp [hnone o ho]
  unfold neighborCount
  rw [h0]
  rfl

/-- C14 on the grid of `TestGetAliveNeighborCells` at the test's centre
`(5, 4)`, which lies outside the grid. -/
theorem GetAliveNeighborCells_total_witness :
    GetAliveNeighborCells testGrid 5 4 = some (neighborCount testGrid 5 4) ∧
      GetAliveNeighborCells testGrid 5 4 = some 0 :=
  ⟨(GetAliveNeighborCells_total testGrid 5 4 (by decide) (by decide) (by decide)
      (by decide)).1,
    (GetAliveNeighborCells_total testGrid 5 4 (by decide) (by decide) (by decide)
      (by decide)).2 (by decide)⟩

/-- C15: on a well-formed grid `Walk` leaves the grid entirely unchanged
exactly when the double-buffered reference step does; so every still life of
the bounded grid is preserved by `Walk`. -/
theorem Walk_fixed_iff_reference_fixed (g : Grid) (hw : WellFormed g) (hi : IntFields g)
    (hf : FrameFits g) :
    (∃ out, Walk g = some (g, out)) ↔ referenceStep g = g := by
  constructor
  · rintro ⟨out, hout⟩
    obtain ⟨g', hwalk, -, -, -, hcells⟩ := Walk_result hw hf
    have hg : g' = g := by
      rw [hout] at hwalk
      exact (Prod.mk.inj (Option.some.inj hwalk)).1.symm
    subst hg
    rw [referenceStep_eq_self_iff]
    intro x y c hc
    obtain ⟨hx0, hx1, hy0, hy1⟩ := cellAt_inBounds hw hc
    obtain ⟨c', hc', hnext⟩ := hcells hi x y hx0 hx1 hy0 hy1
    rw [hc] at hc' hnext
    rw [← Option.some.inj hc', sweepCount_self] at hnext
    exact (Option.some.inj hnext).symm
  · intro href
    exact Walk_fixed hw hi hf
      (fun x y c _ _ _ _ hc => (referenceStep_eq_self_iff g).mp href x y c hc)

/-- C15 on the 4×4 grid that holds the block, a still life. -/
theorem Walk_fixed_iff_reference_fixed_witness :
    ((∃ out, Walk block = some (block, out)) ↔ referenceStep block = block) ∧
      referenceStep block = block :=
  ⟨Walk_fixed_iff_reference_fixed block (by decide) (by decide) (by decide), by decide⟩

/-- C16: `Walk` is a row-major in-place sweep.  On a well-formed grid it
completes, and every in-bounds cell ends as `NextGeneration` of its old state
and of the count that reads the already-updated grid at the neighbours that
precede it (the row above, and `(x-1, y)`) and the start-of-step grid at those
that follow (`(x+1, y)` and the row below); the cell `(0, 0)` so receives its
simultaneous next state. -/
theorem Walk_row_major_sweep (g : Grid) (hw : WellFormed g) (hi : IntFields g)
    (hf : FrameFits g) :
    ∃ g' out, Walk g = some (g', out) ∧
      (∀ x y : Int, 0 ≤ x → x < g.x → 0 ≤ y → y < g.y →
        ∃ c, cellAt g x y = some c ∧
          cellAt g' x y = some (NextGeneration c (sweepCount g g' x y))) ∧
      (0 < g.x → 0 < g.y →
        ∃ c, cellAt g 0 0 = some c ∧
          cellAt g' 0 0 = some (NextGeneration c (neighborCount g 0 0))) := by
  obtain ⟨g', hwalk, -, -, -, hcells⟩ := Walk_result hw hf
  refine ⟨g', frameText g, hwalk, hcells hi, ?_⟩
  intro hx hy
  obtain ⟨c, hc, hnext⟩ := hcells hi 0 0 (le_refl 0) hx (le_refl 0) hy
  refine ⟨c, hc, ?_⟩
  have hcount : sweepCount g g' 0 0 = neighborCount g 0 0 := by
    rw [neighborCount_eq_sum]
    unfold sweepCount
    rw [@contribution_of_negative g' (0 + -1) (0 + -1) (by decide),
      @contribution_of_negative g' (0 + 0) (0 + -1) (by decide),
      @contribution_of_negative g' (0 + 1) (0 + -1) (by decide),
      @contribution_of_negative g' (0 + -1) (0 + 0) (by decide),
      @contribution_of_negative g (0 + -1) (0 + -1) (by decide),
      @contribution_of_negative g (0 + 0) (0 + -1) (by decide),
      @contribution_of_negative g (0 + 1) (0 + -1) (by decide),
      @contribution_of_negative g (0 + -1) (0 + 0) (by decide)]
  rw [← hcount]
  exact hnext

/-- C16 on the row of three Alive cells, at the cells `(1, 0)` and `(0, 0)`. -/
theorem Walk_row_major_sweep_witness :
    ∃ g' out, Walk rowOfThree = some (g', out) ∧
      (∃ c, cellAt rowOfThree 1 0 = some c ∧
        cellAt g' 1 0 = some (NextGeneration c (sweepCount rowOfThree g' 1 0))) ∧
      (∃ c, cellAt rowOfThree 0 0 = some c ∧
        cellAt g' 0 0 = some (NextGeneration c (neighborCount rowOfThree 0 0))) := by
  obtain ⟨g', out, hwalk, hall, hfirst⟩ :=
    Walk_row_major_sweep rowOfThree (by decide) (by decide) (by decide)
  exact ⟨g', out, hwalk, hall 1 0 (by decide) (by decide) (by decide) (by decide),
    hfirst (by decide) (by decide)⟩

/-- C17: on a well-formed grid the text `Walk` prints is the cursor-up
sequence `g.y + 1` times, then one glyph per cell of the grid as it stood at
the start, row after row with nothing between the rows (`█` for Alive, a blank
otherwise), then one newline. -/
theorem Walk_frame_text (g : Grid) (hw : WellFormed g) (hf : FrameFits g) :
    ∃ g', Walk g = some (g',
      String.join (List.replicate (g.y + 1).toNat "\x1b[1A") ++
        String.join (g.Cells.map (fun row =>
          String.join (row.map (fun c => if c = Alive then "█" else " ")))) ++ "\n") := by
  obtain ⟨g', hwalk, -⟩ := Walk_result hw hf
  exact ⟨g', hwalk⟩

/-- C17 on the horizontal blinker: the frame shows the three cells in the
middle row, although `Walk` has changed them. -/
theorem Walk_frame_text_witness :
    (∃ g', Walk blinker = some (g',
      String.join (List.replicate (blinker.y + 1).toNat "\x1b[1A") ++
        String.join (blinker.Cells.map (fun row =>
          String.join (row.map (fun c => if c = Alive then "█" else " ")))) ++ "\n")) ∧
    (Walk blinker).map (fun r => r.2) =
      some "\x1b[1A\x1b[1A\x1b[1A\x1b[1A\x1b[1A\x1b[1A           ███           \n" :=
  ⟨Walk_frame_text blinker (by decide) (by decide), by decide⟩

/-- C18: `Populate` on a well-formed grid whose rows are within the limit of
`make`, the draws of the random source taken as inputs.  It completes; in a row whose row draw (`rand.Int64N(3)`) is
not zero every cell is the zero `Cell`, which is Alive; in a row whose row draw
is zero a cell is Alive when its cell draw (`rand.Int64N(20)`) is zero and Dead
otherwise. -/
theorem Populate_draws (g : Grid) (r : Rand) (hw : WellFormed g) (hfit : RowFits g) :
    ∃ g' r', Populate g r = some (g', r') ∧
      ∀ x y : Nat, (x : Int) < g.x → (y : Int) < g.y →
        (rowDraw r g.x.toNat y ≠ 0 →
          cellAt g' (x : Int) (y : Int) = some (0 : Cell) ∧
            cellAt g' (x : Int) (y : Int) = some Alive) ∧
        (rowDraw r g.x.toNat y = 0 →
          (cellDraw r g.x.toNat x y = 0 → cellAt g' (x : Int) (y : Int) = some Alive) ∧
          (cellDraw r g.x.toNat x y ≠ 0 → cellAt g' (x : Int) (y : Int) = some Dead)) := by
  obtain ⟨g', r', hpop, -, -, -, hrows⟩ := Populate_eq hw hfit r
  refine ⟨g', r', hpop, ?_⟩
  intro x y hx hy
  obtain ⟨row, hrow, -, hnonzero, hzero⟩ := hrows y hy
  have hxlt : x < g.x.toNat := by omega
  refine ⟨fun hd => ?_, fun hd => ⟨fun hc => ?_, fun hc => ?_⟩⟩
  · have hcell := cellAt_of_getElem? hrow (hnonzero hd x hxlt)
    exact ⟨hcell, hcell⟩
  · have hcell := cellAt_of_getElem? hrow (hzero hd x hxlt)
    unfold cellDraw at hc
    rw [hcell, if_pos hc]
  · have hcell := cellAt_of_getElem? hrow (hzero hd x hxlt)
    unfold cellDraw at hc
    rw [hcell, if_neg hc]

/-- C18 on a 3×2 grid with the draws 0, 1, 40, 3, 4, …: the row draw of row 0
is zero and its cell draws are 1, 0 and 3; the row draw of row 1 is 1. -/
theorem Populate_draws_witness :
    (∃ g' r', Populate allDead sampleRand = some (g', r') ∧
      cellAt g' ((1 : Nat) : Int) ((0 : Nat) : Int) = some Alive ∧
      cellAt g' ((0 : Nat) : Int) ((0 : Nat) : Int) = some Dead ∧
      cellAt g' ((2 : Nat) : Int) ((1 : Nat) : Int) = some Alive) ∧
    (Populate allDead sampleRand).map (fun s => s.1) =
      some ⟨3, 2, [[Dead, Alive, Dead], [Alive, Alive, Alive]]⟩ ∧
    rowDraw sampleRand 3 0 = 0 ∧ cellDraw sampleRand 3 1 0 = 0 ∧
    cellDraw sampleRand 3 0 0 = 1 ∧ rowDraw sampleRand 3 1 = 1 := by
  refine ⟨?_, by decide, by decide, by decide, by decide, by decide⟩
  obtain ⟨g', r', hpop, hall⟩ := Populate_draws allDead sampleRand (by decide) (by decide)
  exact ⟨g', r', hpop,
    ((hall 1 0 (by decide) (by decide)).2 (by decide)).1 (by decide),
    ((hall 0 0 (by decide) (by decide)).2 (by decide)).2 (by decide),
    ((hall 2 1 (by decide) (by decide)).1 (by decide)).2⟩

end GameOfLife
